import Mathlib

/-!
Verification of the command interpreter in `executor.py` against its
natural-language specification.  The interpreter is modelled shallowly:
Python strings become lists of characters (`Str`), the filesystem becomes an
association list from normalized absolute paths to entries, and the
psutil/OS facilities that the interpreter merely formats are supplied as an
opaque `Metrics` record.  Every definition follows the corresponding Python
source line by line.
-/

set_option maxHeartbeats 1000000

namespace PyTerm

/-- Characters of a Python string; the representation used throughout the model. -/
abbrev Str := List Char

/-- View a Lean string literal as a Python string value. -/
def str (s : String) : Str := s.toList

/-- Whitespace recognized by Python's `str.strip` (ASCII range). -/
def isPyWS (c : Char) : Bool :=
  c = ' ' || c = '\t' || c = '\n' || c = '\r' || c = '\x0b' || c = '\x0c'

/-- Python `str.strip()`: drop leading and trailing whitespace. -/
def pyStrip (s : Str) : Str :=
  ((s.dropWhile isPyWS).reverse.dropWhile isPyWS).reverse

/-- Python `str.rstrip()`: drop trailing whitespace. -/
def pyRstrip (s : Str) : Str :=
  (s.reverse.dropWhile isPyWS).reverse

/-- `os.path.isabs`: the path starts with a slash. -/
def isAbsL : Str → Bool
  | [] => false
  | c :: _ => c = '/'

/-- Python `path.split('/')`. -/
def splitSlash : Str → List Str
  | [] => [[]]
  | '/' :: rest => [] :: splitSlash rest
  | c :: rest =>
    match splitSlash rest with
    | [] => [[c]]
    | g :: gs => (c :: g) :: gs

/-- Python `'/'.join(...)`. -/
def joinSlash : List Str → Str
  | [] => []
  | [g] => g
  | g :: gs => g ++ '/' :: joinSlash gs

/-- One iteration of the component loop of `posixpath.normpath`.  The
accumulator `acc` is the `new_comps` list kept in reverse order; `hasSlash`
is the truthiness of `initial_slashes`. -/
def normStep (hasSlash : Bool) (acc : List Str) (comp : Str) : List Str :=
  if comp = [] ∨ comp = ['.'] then acc
  else if comp ≠ ['.', '.'] ∨ (¬hasSlash ∧ acc = []) ∨ acc.head? = some ['.', '.'] then
    comp :: acc
  else
    match acc with
    | [] => []
    | _ :: t => t

/-- The `initial_slashes` count of `posixpath.normpath` (0, 1, or 2). -/
def initialSlashes (p : Str) : Nat :=
  if p.take 2 = ['/', '/'] ∧ p.take 3 ≠ ['/', '/', '/'] then 2
  else if isAbsL p then 1 else 0

/-- `posixpath.normpath` (note `initial_slashes` is truthy iff `isAbsL p`). -/
def normpathL (p : Str) : Str :=
  if p = [] then ['.']
  else
    let k := initialSlashes p
    let nc := ((splitSlash p).foldl (normStep (isAbsL p)) []).reverse
    let out := List.replicate k '/' ++ joinSlash nc
    if out = [] then ['.'] else out

/-- `posixpath.join` restricted to two arguments, as used by the resolver. -/
def pyJoin (a b : Str) : Str :=
  if isAbsL b then b
  else if a = [] ∨ a.getLast? = some '/' then a ++ b
  else a ++ '/' :: b

/-- `CommandExecutor._path_resolve`. -/
def _path_resolve (path cwd : Str) : Str :=
  if isAbsL path then normpathL path
  else normpathL (pyJoin cwd path)

/-! ### Idempotence of path normalization -/

theorem splitSlash_ne_nil (s : Str) : splitSlash s ≠ [] := by
  induction s with
  | nil => simp [splitSlash]
  | cons c rest ih =>
    by_cases h : c = '/'
    · subst h; simp [splitSlash]
    · rw [show splitSlash (c :: rest) =
        (match splitSlash rest with
         | [] => [[c]]
         | g :: gs => (c :: g) :: gs) from by
          cases rest <;> simp [splitSlash, h]]
      cases splitSlash rest <;> simp

theorem splitSlash_cons_ne (c : Char) (rest : Str) (h : c ≠ '/') :
    splitSlash (c :: rest) =
      match splitSlash rest with
      | [] => [[c]]
      | g :: gs => (c :: g) :: gs := by
  cases rest <;> simp [splitSlash, h]

theorem mem_splitSlash_no_slash (s : Str) (g : Str) (hg : g ∈ splitSlash s) :
    '/' ∉ g := by
  induction s generalizing g with
  | nil => simp [splitSlash] at hg; subst hg; simp
  | cons c rest ih =>
    by_cases h : c = '/'
    · subst h
      simp [splitSlash] at hg
      rcases hg with hg | hg
      · subst hg; simp
      · exact ih g hg
    · rw [splitSlash_cons_ne c rest h] at hg
      rcases hsp : splitSlash rest with _ | ⟨g0, gs⟩
      · exact absurd hsp (splitSlash_ne_nil rest)
      · rw [hsp] at hg
        simp at hg
        rcases hg with hg | hg
        · subst hg
          have hg0 : '/' ∉ g0 := ih g0 (by rw [hsp]; exact List.mem_cons_self ..)
          simp [h, hg0]
          exact fun hc => absurd hc.symm h
        · exact ih g (by rw [hsp]; exact List.mem_cons_of_mem _ hg)

theorem splitSlash_no_slash (g : Str) (h : '/' ∉ g) : splitSlash g = [g] := by
  induction g with
  | nil => simp [splitSlash]
  | cons c rest ih =>
    have hc : c ≠ '/' := fun hc => h (hc ▸ List.mem_cons_self ..)
    rw [splitSlash_cons_ne c rest hc, ih (fun hm => h (List.mem_cons_of_mem _ hm))]

theorem splitSlash_append (g rest : Str) (h : '/' ∉ g) :
    splitSlash (g ++ '/' :: rest) = g :: splitSlash rest := by
  induction g with
  | nil => simp [splitSlash]
  | cons c g' ih =>
    have hc : c ≠ '/' := fun hc => h (hc ▸ List.mem_cons_self ..)
    have ih' := ih (fun hm => h (List.mem_cons_of_mem _ hm))
    rw [List.cons_append, splitSlash_cons_ne c (g' ++ '/' :: rest) hc, ih']

theorem splitSlash_joinSlash (gs : List Str) (hne : gs ≠ [])
    (h : ∀ g ∈ gs, '/' ∉ g) : splitSlash (joinSlash gs) = gs := by
  induction gs with
  | nil => exact absurd rfl hne
  | cons g gs' ih =>
    cases gs' with
    | nil => exact splitSlash_no_slash g (h g (List.mem_cons_self ..))
    | cons g2 gs'' =>
      have hjoin : joinSlash (g :: g2 :: gs'') = g ++ '/' :: joinSlash (g2 :: gs'') := rfl
      rw [hjoin, splitSlash_append g _ (h g (List.mem_cons_self ..)),
        ih (by simp) (fun x hx => h x (List.mem_cons_of_mem _ hx))]

/-- A path component that `normpath`'s loop passes through unchanged. -/
def goodComp (g : Str) : Prop := g ≠ [] ∧ g ≠ ['.'] ∧ g ≠ ['.', '.']

theorem foldl_normStep_abs (comps : List Str) :
    ∀ acc, (∀ g ∈ acc, g ≠ ['.', '.']) →
      ∀ g ∈ comps.foldl (normStep true) acc,
        g ∈ acc ∨ (g ∈ comps ∧ goodComp g) := by
  induction comps with
  | nil => intro acc _ g hg; exact Or.inl hg
  | cons c cs ih =>
    intro acc hacc g hg
    rw [List.foldl_cons] at hg
    by_cases hskip : c = [] ∨ c = ['.']
    · rw [show normStep true acc c = acc from by simp [normStep, hskip]] at hg
      rcases ih acc hacc g hg with h | h
      · exact Or.inl h
      · exact Or.inr ⟨List.mem_cons_of_mem _ h.1, h.2⟩
    · by_cases hdd : c = ['.', '.']
      · cases acc with
        | nil =>
          have hstep : normStep true [] c = [] := by
            unfold normStep
            rw [if_neg hskip, if_neg (by rintro (h | h | h) <;> simp_all)]
          rw [hstep] at hg
          rcases ih [] (by simp) g hg with h | h
          · simp at h
          · exact Or.inr ⟨List.mem_cons_of_mem _ h.1, h.2⟩
        | cons a t =>
          have hhead : a ≠ ['.', '.'] := hacc a (List.mem_cons_self ..)
          have hstep : normStep true (a :: t) c = t := by
            unfold normStep
            rw [if_neg hskip, if_neg (by rintro (h | h | h) <;> simp_all)]
          rw [hstep] at hg
          rcases ih t (fun x hx => hacc x (List.mem_cons_of_mem _ hx)) g hg with h | h
          · exact Or.inl (List.mem_cons_of_mem _ h)
          · exact Or.inr ⟨List.mem_cons_of_mem _ h.1, h.2⟩
      · have hstep : normStep true acc c = c :: acc := by
          unfold normStep
          rw [if_neg hskip, if_pos (Or.inl hdd)]
        rw [hstep] at hg
        have hacc' : ∀ x ∈ c :: acc, x ≠ ['.', '.'] := by
          intro x hx
          rcases List.mem_cons.mp hx with hx | hx
          · subst hx; exact hdd
          · exact hacc x hx
        rcases ih (c :: acc) hacc' g hg with h | h
        · rcases List.mem_cons.mp h with h | h
          · subst h
            push_neg at hskip
            exact Or.inr ⟨List.mem_cons_self .., hskip.1, hskip.2, hdd⟩
          · exact Or.inl h
        · exact Or.inr ⟨List.mem_cons_of_mem _ h.1, h.2⟩

theorem foldl_normStep_empties (b : Bool) (k : Nat) (acc : List Str) :
    (List.replicate k ([] : Str)).foldl (normStep b) acc = acc := by
  induction k generalizing acc with
  | zero => rfl
  | succ n ih =>
    rw [List.replicate_succ, List.foldl_cons,
      show normStep b acc [] = acc from by simp [normStep]]
    exact ih acc

theorem foldl_normStep_all_good (b : Bool) (comps : List Str)
    (h : ∀ g ∈ comps, goodComp g) :
    ∀ acc, comps.foldl (normStep b) acc = comps.reverse ++ acc := by
  induction comps with
  | nil => intro acc; rfl
  | cons c cs ih =>
    intro acc
    have hc := h c (List.mem_cons_self ..)
    have hstep : normStep b acc c = c :: acc := by
      simp only [normStep]
      rw [if_neg (by push_neg; exact ⟨hc.1, hc.2.1⟩), if_pos (Or.inl hc.2.2)]
    rw [List.foldl_cons, hstep, ih (fun g hg => h g (List.mem_cons_of_mem _ hg)) (c :: acc)]
    simp

theorem isAbsL_iff (p : Str) : isAbsL p = true ↔ ∃ q, p = '/' :: q := by
  cases p with
  | nil => simp [isAbsL]
  | cons c q =>
    simp only [isAbsL, decide_eq_true_eq, List.cons.injEq]
    constructor
    · intro h; exact ⟨q, h, rfl⟩
    · rintro ⟨q', hc, _⟩; exact hc

theorem initialSlashes_pos (p : Str) (habs : isAbsL p = true) :
    1 ≤ initialSlashes p := by
  unfold initialSlashes
  split
  · omega
  · simp [habs]

theorem initialSlashes_le (p : Str) : initialSlashes p ≤ 2 := by
  unfold initialSlashes
  split
  · omega
  · split <;> omega

theorem normpathL_abs (p : Str) (habs : isAbsL p = true) :
    normpathL p =
      List.replicate (initialSlashes p) '/' ++
        joinSlash (((splitSlash p).foldl (normStep true) []).reverse) := by
  have hpne : p ≠ [] := by rintro rfl; simp [isAbsL] at habs
  have hk1 : 1 ≤ initialSlashes p := initialSlashes_pos p habs
  have hout_ne : List.replicate (initialSlashes p) '/' ++
      joinSlash (((splitSlash p).foldl (normStep true) []).reverse) ≠ [] := by
    simp only [ne_eq, List.append_eq_nil, List.replicate_eq_nil_iff]
    rintro ⟨h, -⟩
    omega
  simp only [normpathL, habs, if_neg hpne, if_neg hout_ne]

theorem isAbsL_normpathL (p : Str) (habs : isAbsL p = true) :
    isAbsL (normpathL p) = true := by
  rw [normpathL_abs p habs]
  have hk1 := initialSlashes_pos p habs
  cases hk : initialSlashes p with
  | zero => omega
  | succ n => simp [List.replicate_succ, isAbsL]

theorem joinSlash_shape (nc : List Str) (hnc : ∀ g ∈ nc, goodComp g ∧ '/' ∉ g) :
    joinSlash nc = [] ∨ ∃ c X, joinSlash nc = c :: X ∧ c ≠ '/' := by
  cases nc with
  | nil => exact Or.inl rfl
  | cons g gs =>
    obtain ⟨⟨hne, -, -⟩, hns⟩ := hnc g (List.mem_cons_self ..)
    cases g with
    | nil => exact absurd rfl hne
    | cons c g' =>
      have hc : c ≠ '/' := fun h => hns (by rw [h]; exact List.mem_cons_self ..)
      cases gs with
      | nil => exact Or.inr ⟨c, g', rfl, hc⟩
      | cons h2 t2 => exact Or.inr ⟨c, g' ++ '/' :: joinSlash (h2 :: t2), rfl, hc⟩

theorem initialSlashes_out (k : Nat) (hk1 : 1 ≤ k) (hk2 : k ≤ 2) (nc : List Str)
    (hnc : ∀ g ∈ nc, goodComp g ∧ '/' ∉ g) :
    initialSlashes (List.replicate k '/' ++ joinSlash nc) = k := by
  rcases joinSlash_shape nc hnc with h | ⟨c, X, h, hc⟩
  · rw [h]
    interval_cases k <;> simp [initialSlashes, isAbsL, List.replicate_succ]
  · rw [h]
    interval_cases k <;> simp [initialSlashes, isAbsL, List.replicate_succ, hc]

theorem splitSlash_replicate_append (k : Nat) (s : Str) :
    splitSlash (List.replicate k '/' ++ s) =
      List.replicate k ([] : Str) ++ splitSlash s := by
  induction k with
  | zero => simp
  | succ n ih => simp [List.replicate_succ, splitSlash, ih]

theorem normpathL_fixpoint_comps (k : Nat) (nc : List Str)
    (hgood : ∀ g ∈ nc, goodComp g ∧ '/' ∉ g) :
    ((splitSlash (List.replicate k '/' ++ joinSlash nc)).foldl
      (normStep true) []).reverse = nc := by
  rw [splitSlash_replicate_append]
  cases nc with
  | nil =>
    rw [show joinSlash [] = [] from rfl, show splitSlash [] = [[]] from rfl,
      show List.replicate k ([] : Str) ++ [[]] = List.replicate (k + 1) [] from by
        simp [List.replicate_succ'],
      foldl_normStep_empties]
    rfl
  | cons g gs =>
    rw [splitSlash_joinSlash (g :: gs) (by simp) (fun x hx => (hgood x hx).2),
      List.foldl_append, foldl_normStep_empties,
      foldl_normStep_all_good true (g :: gs) (fun x hx => (hgood x hx).1) []]
    simp

theorem normpathL_idem (p : Str) (habs : isAbsL p = true) :
    normpathL (normpathL p) = normpathL p := by
  have hout := normpathL_abs p habs
  set k := initialSlashes p with hkdef
  set nc := ((splitSlash p).foldl (normStep true) []).reverse with hncdef
  have hk1 : 1 ≤ k := initialSlashes_pos p habs
  have hk2 : k ≤ 2 := initialSlashes_le p
  have hgood : ∀ g ∈ nc, goodComp g ∧ '/' ∉ g := by
    intro g hg
    rw [hncdef, List.mem_reverse] at hg
    rcases foldl_normStep_abs (splitSlash p) [] (by simp) g hg with h | h
    · simp at h
    · exact ⟨h.2, mem_splitSlash_no_slash p g h.1⟩
  have houtabs : isAbsL (List.replicate k '/' ++ joinSlash nc) = true := by
    cases hk : k with
    | zero => omega
    | succ n => simp [List.replicate_succ, isAbsL]
  have hslash : initialSlashes (List.replicate k '/' ++ joinSlash nc) = k :=
    initialSlashes_out k hk1 hk2 nc hgood
  have hfold := normpathL_fixpoint_comps k nc hgood
  rw [hout, normpathL_abs _ houtabs, hslash, hfold]

theorem isAbsL_pyJoin (a b : Str) (ha : isAbsL a = true) :
    isAbsL (pyJoin a b) = true := by
  obtain ⟨q, rfl⟩ := (isAbsL_iff a).1 ha
  unfold pyJoin
  split
  · assumption
  · split <;> simp [isAbsL]

theorem path_resolve_absolute (p cwd : Str) (hcwd : isAbsL cwd = true) :
    isAbsL (_path_resolve p cwd) = true := by
  unfold _path_resolve
  split
  · exact isAbsL_normpathL p (by assumption)
  · exact isAbsL_normpathL _ (isAbsL_pyJoin cwd p hcwd)

theorem path_resolve_of_abs (q c : Str) (h : isAbsL q = true) :
    _path_resolve q c = normpathL q := by
  unfold _path_resolve
  rw [if_pos h]

/-- C9: resolving a path against an (absolute) working directory and then
resolving the result again — against any working directory, since the result
is absolute — yields the same string as resolving once. -/
theorem path_resolve_idempotent (p cwd cwd' : Str) (hcwd : isAbsL cwd = true) :
    _path_resolve (_path_resolve p cwd) cwd' = _path_resolve p cwd := by
  rw [path_resolve_of_abs _ cwd' (path_resolve_absolute p cwd hcwd)]
  unfold _path_resolve
  split
  · exact normpathL_idem p (by assumption)
  · exact normpathL_idem _ (isAbsL_pyJoin cwd p hcwd)

/-- Witness for C9 at a concrete input: resolving `"a/../b/./c"` against
`"/tmp"` once and twice agree. -/
theorem path_resolve_idempotent_witness :
    isAbsL (str "/tmp") = true ∧
      _path_resolve (_path_resolve (str "a/../b/./c") (str "/tmp")) (str "/x") =
        _path_resolve (str "a/../b/./c") (str "/tmp") :=
  ⟨by decide, path_resolve_idempotent (str "a/../b/./c") (str "/tmp") (str "/x")
    (by decide)⟩

/-! ### Further Python string primitives used by the interpreter -/

/-- `sep.join(parts)` for a one-character separator. -/
def joinWith (sep : Char) : List Str → Str
  | [] => []
  | [g] => g
  | g :: gs => g ++ sep :: joinWith sep gs

/-- Python `s.split(sep, maxsplit)` for a one-character separator. -/
def pySplitMax (sep : Char) : Nat → Str → List Str
  | 0, s => [s]
  | Nat.succ n, s =>
    if sep ∈ s then
      s.takeWhile (fun c => c != sep) ::
        pySplitMax sep n ((s.dropWhile (fun c => c != sep)).drop 1)
    else [s]

/-- The lines of a Python text stream as produced by iteration /
`readlines()`: each line keeps its trailing newline; a final unterminated
line is kept as-is. -/
def linesKE : Str → List Str
  | [] => []
  | '\n' :: rest => ['\n'] :: linesKE rest
  | c :: rest =>
    match linesKE rest with
    | [] => [[c]]
    | g :: gs => (c :: g) :: gs

/-- Helper for `pyWords`: accumulate the current word (reversed). -/
def pyWordsAux : Str → Str → List Str
  | [], cur => if cur = [] then [] else [cur.reverse]
  | c :: rest, cur =>
    if isPyWS c then
      if cur = [] then pyWordsAux rest []
      else cur.reverse :: pyWordsAux rest []
    else pyWordsAux rest (c :: cur)

/-- Python `s.split()` with no arguments: maximal runs of non-whitespace. -/
def pyWords (s : Str) : List Str := pyWordsAux s []

/-- Python `str(n)` for a natural number. -/
def natToStr (n : Nat) : Str := Nat.toDigits 10 n

/-- Python `str(i)` for an integer. -/
def intToStr (i : Int) : Str :=
  if i < 0 then '-' :: natToStr i.natAbs else natToStr i.toNat

/-- Python format `{x:Nd}`-style right justification. -/
def padLeft (w : Nat) (s : Str) : Str := List.replicate (w - s.length) ' ' ++ s

def isDigitC (c : Char) : Bool := '0' ≤ c && c ≤ '9'

/-- A nonempty digit run with optional single underscores between digits
(Python's integer-literal grammar). -/
def digitsUnder : Str → Bool
  | [] => false
  | [c] => isDigitC c
  | c :: '_' :: rest => isDigitC c && digitsUnder rest
  | c :: rest => isDigitC c && digitsUnder rest

/-- Numeric value of a digit run, ignoring underscores. -/
def digitsVal (s : Str) : Nat :=
  (s.filter (fun c => c != '_')).foldl (fun n c => n * 10 + (c.toNat - '0'.toNat)) 0

/-- Python `int(s)` in base 10: optional surrounding whitespace and sign. -/
def pyInt? (s : Str) : Option Int :=
  match pyStrip s with
  | '-' :: rest => if digitsUnder rest then some (-(digitsVal rest : Int)) else none
  | '+' :: rest => if digitsUnder rest then some ((digitsVal rest : Int)) else none
  | t => if digitsUnder t then some ((digitsVal t : Int)) else none

def isOctDigit (c : Char) : Bool := '0' ≤ c && c ≤ '7'

/-- A nonempty octal digit run with optional single underscores. -/
def octUnder : Str → Bool
  | [] => false
  | [c] => isOctDigit c
  | c :: '_' :: rest => isOctDigit c && octUnder rest
  | c :: rest => isOctDigit c && octUnder rest

/-- Numeric value of an octal digit run, ignoring underscores. -/
def octVal (s : Str) : Nat :=
  (s.filter (fun c => c != '_')).foldl (fun n c => n * 8 + (c.toNat - '0'.toNat)) 0

/-- The unsigned body of Python `int(s, 8)`: optional `0o` prefix. -/
def pyIntOctBody : Str → Option Nat
  | '0' :: 'o' :: '_' :: r => if octUnder r then some (octVal r) else none
  | '0' :: 'o' :: r => if octUnder r then some (octVal r) else none
  | '0' :: 'O' :: '_' :: r => if octUnder r then some (octVal r) else none
  | '0' :: 'O' :: r => if octUnder r then some (octVal r) else none
  | t => if octUnder t then some (octVal t) else none

/-- Python `int(s, 8)`: optional whitespace and sign around the octal body. -/
def pyIntOct? (s : Str) : Option Int :=
  match pyStrip s with
  | '-' :: rest => (pyIntOctBody rest).map (fun n => -(n : Int))
  | '+' :: rest => (pyIntOctBody rest).map (fun n => (n : Int))
  | t => (pyIntOctBody t).map (fun n => (n : Int))

/-- Python list slice `l[k:]` for a possibly negative start index. -/
def pySliceFrom (k : Int) (l : List Str) : List Str :=
  if 0 ≤ k then l.drop k.toNat
  else l.drop (l.length - ((-k).toNat.min l.length))

/-- Python string comparison (code-point lexicographic, strict). -/
def strLt : Str → Str → Bool
  | [], [] => false
  | [], _ :: _ => true
  | _ :: _, [] => false
  | a :: as, b :: bs => if a = b then strLt as bs else decide (a < b)

/-- One insertion step of a stable insertion sort. -/
def insertS (x : Str) : List Str → List Str
  | [] => [x]
  | y :: ys => if strLt x y then x :: y :: ys else y :: insertS x ys

/-- Python `sorted` on strings (stable, code-point lexicographic). -/
def sortedPy (l : List Str) : List Str := l.foldr insertS []

/-! ### The shlex tokenizer (`shlex.split`, POSIX mode) -/

/-- Tokenizer state: outside quotes, inside single quotes, or inside double
quotes. -/
inductive LexSt
  | normal
  | single
  | double
deriving DecidableEq

/-- `shlex`'s whitespace characters. -/
def isShlexWS (c : Char) : Bool := c = ' ' || c = '\t' || c = '\r' || c = '\n'

/-- The loop of `shlex.split(s)` (POSIX mode, whitespace splitting): `cur` is
the current token reversed, `hasTok` records whether a token has been started
(so quoted empty tokens survive), `acc` holds finished tokens reversed. -/
def shlexAux : Str → LexSt → Bool → Str → List Str → Except Str (List Str)
  | [], .normal, hasTok, cur, acc =>
    .ok (if hasTok then (cur.reverse :: acc).reverse else acc.reverse)
  | [], .single, _, _, _ => .error (str "No closing quotation")
  | [], .double, _, _, _ => .error (str "No closing quotation")
  | c :: rest, .normal, hasTok, cur, acc =>
    if isShlexWS c then
      if hasTok then shlexAux rest .normal false [] (cur.reverse :: acc)
      else shlexAux rest .normal false [] acc
    else if c = '\'' then shlexAux rest .single true cur acc
    else if c = '"' then shlexAux rest .double true cur acc
    else if c = '\\' then
      match rest with
      | [] => .error (str "No escaped character")
      | d :: rest' => shlexAux rest' .normal true (d :: cur) acc
    else shlexAux rest .normal true (c :: cur) acc
  | c :: rest, .single, _, cur, acc =>
    if c = '\'' then shlexAux rest .normal true cur acc
    else shlexAux rest .single true (c :: cur) acc
  | c :: rest, .double, _, cur, acc =>
    if c = '"' then shlexAux rest .normal true cur acc
    else if c = '\\' then
      match rest with
      | [] => .error (str "No escaped character")
      | d :: rest' =>
        if d = '"' ∨ d = '\\' then shlexAux rest' .double true (d :: cur) acc
        else shlexAux rest' .double true (d :: '\\' :: cur) acc
    else shlexAux rest .double true (c :: cur) acc

/-- `shlex.split` as called by the interpreter (line 72 of `executor.py`). -/
def shlexSplit (s : Str) : Except Str (List Str) := shlexAux s .normal false [] []

/-! ### The filesystem model -/

/-- A filesystem entry: a regular file with text content, or a directory. -/
inductive Entry
  | file (content : Str)
  | dir
deriving DecidableEq

/-- The external OS filesystem: an association list from normalized absolute
paths to entries (the first binding for a path wins). -/
structure FS where
  entries : List (Str × Entry)
deriving DecidableEq

def FS.lookup (fs : FS) (p : Str) : Option Entry := List.lookup p fs.entries

/-- `os.path.exists`. -/
def FS.pathExists (fs : FS) (p : Str) : Bool := (fs.lookup p).isSome

/-- `os.path.isdir`. -/
def FS.isDir (fs : FS) (p : Str) : Bool := fs.lookup p == some .dir

/-- `os.path.isfile`. -/
def FS.isFile (fs : FS) (p : Str) : Bool :=
  match fs.lookup p with
  | some (.file _) => true
  | _ => false

/-- Contents of the file at `p` (callers check existence first). -/
def FS.readFile (fs : FS) (p : Str) : Str :=
  match fs.lookup p with
  | some (.file c) => c
  | _ => []

/-- Bind `p` to `e`, replacing any previous binding. -/
def FS.set (fs : FS) (p : Str) (e : Entry) : FS :=
  ⟨(p, e) :: fs.entries.filter (fun q => q.1 != p)⟩

/-- `os.path.dirname` (posixpath). -/
def dirnameL (p : Str) : Str :=
  if '/' ∈ p then
    let head := (p.reverse.dropWhile (fun c => c != '/')).reverse
    if head.all (fun c => c == '/') then head
    else (head.reverse.dropWhile (fun c => c == '/')).reverse
  else []

/-- `os.path.basename`. -/
def basenameL (p : Str) : Str := (p.reverse.takeWhile (fun c => c != '/')).reverse

/-- `os.listdir`: names of the immediate children of directory `d`, in the
(OS-unspecified) order in which the model stores them. -/
def FS.listdir (fs : FS) (d : Str) : List Str :=
  fs.entries.filterMap
    (fun q => if q.1 ≠ d ∧ dirnameL q.1 = d then some (basenameL q.1) else none)

/-- `q` lies strictly inside directory `d`. -/
def isUnder (d q : Str) : Bool := (d ++ ['/']).isPrefixOf q

/-- `shutil.rmtree`: remove `d` and everything below it. -/
def FS.rmtree (fs : FS) (d : Str) : FS :=
  ⟨fs.entries.filter (fun q => !(q.1 == d) && !(isUnder d q.1))⟩

/-- `os.remove`. -/
def FS.removeFile (fs : FS) (p : Str) : FS :=
  ⟨fs.entries.filter (fun q => !(q.1 == p))⟩

/-- `open(p, mode)` followed by writing `content` and closing, for
`mode ∈ {"w", "a"}`.  Fails like the OS call when `p` is a directory or its
parent is not an existing directory; the message models the formatted
`OSError`. -/
def FS.writeStr (fs : FS) (p : Str) (mode : Str) (content : Str) : Except Str FS :=
  if fs.isDir p then .error (str "[Errno 21] Is a directory: '" ++ p ++ str "'")
  else if !(fs.isDir (dirnameL p)) then
    .error (str "[Errno 2] No such file or directory: '" ++ p ++ str "'")
  else
    let old := if mode = str "a" then fs.readFile p else []
    .ok (fs.set p (.file (old ++ content)))

/-- The proper ancestors of `p`, nearest first (fuelled: `dirnameL` shortens
the path until it reaches a fixpoint). -/
def ancestorsFuel : Nat → Str → List Str
  | 0, _ => []
  | n + 1, p =>
    let d := dirnameL p
    if d = p ∨ d = [] then [] else d :: ancestorsFuel n d

def ancestors (p : Str) : List Str := ancestorsFuel p.length p

/-- `os.makedirs(p, exist_ok = existOk)`: create `p` and missing ancestors;
an existing directory at `p` is accepted only with `existOk`; a file in the
way raises. -/
def FS.makedirs (fs : FS) (p : Str) (existOk : Bool) : Except Str FS :=
  match fs.lookup p with
  | some .dir =>
    if existOk then .ok fs
    else .error (str "[Errno 17] File exists: '" ++ p ++ str "'")
  | some (.file _) => .error (str "[Errno 17] File exists: '" ++ p ++ str "'")
  | none =>
    if (ancestors p).any (fun a => fs.isFile a) then
      .error (str "[Errno 20] Not a directory: '" ++ p ++ str "'")
    else
      .ok ⟨(p, Entry.dir) :: ((ancestors p).filterMap
        (fun a => if fs.lookup a = none then some (a, Entry.dir) else none))
          ++ fs.entries⟩

/-- `os.walk(top)` top-down: the visited `(root, dirs, files)` triples
(fuelled recursion over the finite filesystem). -/
def walkFuel : Nat → FS → Str → List (Str × List Str × List Str)
  | 0, _, _ => []
  | n + 1, fs, root =>
    let names := fs.listdir root
    let dirs := names.filter (fun m => fs.isDir (pyJoin root m))
    let files := names.filter (fun m => !(fs.isDir (pyJoin root m)))
    (root, dirs, files) ::
      dirs.foldl (fun r m => r ++ walkFuel n fs (pyJoin root m)) []

def FS.walk (fs : FS) (top : Str) : List (Str × List Str × List Str) :=
  walkFuel (fs.entries.length + 1) fs top

/-! ### The external system-metrics provider -/

/-- The external facilities (`psutil`, `datetime`, `getpass`, `socket`,
`hashlib`, `os.path.expanduser`, stat metadata) whose values the interpreter
only formats; all fields are opaque data supplied by the host system. -/
structure Metrics where
  cpuPercent : Str
  memUsed : Str
  memTotal : Str
  memPercent : Str
  procLines : List Str
  dfTotal : Str
  dfUsed : Str
  dfFree : Str
  dfPercent : Str
  upDays : Str
  upHours : Str
  upMinutes : Str
  userName : Str
  hostName : Str
  dateStr : Str
  homeDir : Str
  mtimeOf : Str → Str
  atimeOf : Str → Str
  ctimeOf : Str → Str
  statMode : Str → Str
  dirSize : Str → Int
  md5Hex : Str → Str
  sha256Hex : Str → Str

/-- `os.path.getsize`, with directory sizes supplied by the OS oracle. -/
def getsize (M : Metrics) (fs : FS) (p : Str) : Int :=
  match fs.lookup p with
  | some (.file c) => (c.length : Int)
  | some .dir => M.dirSize p
  | none => 0

/-! ### The verb handlers of `CommandExecutor` -/

/-- The interpreter's result tuple `(stdout, stderr, new_cwd, exit_code)`;
`wd = none` models Python returning `None` in the working-directory slot. -/
structure RRes where
  out : Str
  err : Str
  wd : Option Str
  exit : Int
deriving DecidableEq

/-- A result whose stderr is empty and whose exit code is 0. -/
def okOut (out : Str) (cwd : Str) : RRes := ⟨out, [], some cwd, 0⟩

/-- A result whose stdout is empty. -/
def errOut (err : Str) (cwd : Str) (code : Int) : RRes := ⟨[], err, some cwd, code⟩

/-- `s.startswith(pre)`. -/
def startsWithL (pre s : Str) : Bool := pre.isPrefixOf s

/-- `sep.join(parts)` for an arbitrary separator string. -/
def joinStr (sep : Str) : List Str → Str
  | [] => []
  | [g] => g
  | g :: gs => g ++ sep ++ joinStr sep gs

/-- `"".join(parts)`. -/
def concatL (l : List Str) : Str := l.foldr (fun a r => a ++ r) []

/-- The argument scan of `_ls` (lines 216-227): accumulates
`(target, long_format, show_all)`; the last non-flag argument wins. -/
def lsScan (cwd : Str) : List Str → Str × Bool × Bool → Str × Bool × Bool
  | [], st => st
  | a :: rest, (target, longF, showAll) =>
    if a = str "-l" then lsScan cwd rest (target, true, showAll)
    else if a = str "-a" then lsScan cwd rest (target, longF, true)
    else if a = str "-la" ∨ a = str "-al" then lsScan cwd rest (target, true, true)
    else if !(startsWithL (str "-") a) then
      lsScan cwd rest (_path_resolve a cwd, longF, showAll)
    else lsScan cwd rest (target, longF, showAll)

/-- `CommandExecutor._ls`. -/
def _ls (M : Metrics) (fs : FS) (args : List Str) (cwd : Str) : RRes :=
  match lsScan cwd args (cwd, false, false) with
  | (target, longF, showAll) =>
    if !(fs.pathExists target) then
      errOut (str "ls: cannot access '" ++ target ++
        str "': No such file or directory\n") cwd 2
    else if fs.isFile target then okOut (basenameL target ++ ['\n']) cwd
    else
      let entries0 := fs.listdir target
      let entries1 :=
        if showAll then entries0
        else entries0.filter (fun e => !(startsWithL (str ".") e))
      let entries := sortedPy entries1
      if longF then
        let lines := entries.map (fun e =>
          let p := pyJoin target e
          let dtype := if fs.isDir p then str "d" else str "-"
          dtype ++ str "  " ++ padLeft 10 (intToStr (getsize M fs p)) ++ str "  " ++
            M.mtimeOf p ++ str "  " ++ e)
        okOut (joinStr (str "\n") lines ++ (if lines ≠ [] then ['\n'] else [])) cwd
      else okOut (joinStr (str "  ") entries ++ ['\n']) cwd

/-- `CommandExecutor._cd`.  A raised `IndexError` (empty `args` with a
missing home directory) is modelled as `.error`, caught by `run`'s
catch-all. -/
def _cd (M : Metrics) (fs : FS) (args : List Str) (cwd : Str) : Except Str RRes :=
  let new :=
    match args with
    | [] => M.homeDir
    | a :: _ => _path_resolve a cwd
  if !(fs.pathExists new) then
    match args with
    | [] => .error (str "list index out of range")
    | a :: _ => .ok (errOut (str "cd: " ++ a ++ str ": No such file or directory\n") cwd 1)
  else if !(fs.isDir new) then
    match args with
    | [] => .error (str "list index out of range")
    | a :: _ => .ok (errOut (str "cd: " ++ a ++ str ": Not a directory\n") cwd 1)
  else .ok ⟨[], [], some new, 0⟩

/-- The per-argument loop of `_mkdir`: `FileExistsError` is caught and
reported, any other exception propagates (carrying the filesystem state
mutated so far). -/
def mkdirLoop : FS → List Str → Str → Except (Str × FS) (RRes × FS)
  | fs, [], cwd => .ok (okOut [] cwd, fs)
  | fs, a :: rest, cwd =>
    let p := _path_resolve a cwd
    match fs.makedirs p false with
    | .ok fs' => mkdirLoop fs' rest cwd
    | .error e =>
      if fs.pathExists p then
        .ok (errOut (str "mkdir: cannot create directory '" ++ a ++
          str "': File exists\n") cwd 1, fs)
      else .error (e, fs)

/-- `CommandExecutor._mkdir`. -/
def _mkdir (fs : FS) (args : List Str) (cwd : Str) : Except (Str × FS) (RRes × FS) :=
  if args = [] then .ok (errOut (str "mkdir: missing operand\n") cwd 2, fs)
  else mkdirLoop fs args cwd

/-- The per-path loop of `_rm`. -/
def rmLoop : FS → Bool → List Str → Str → RRes × FS
  | fs, _, [], cwd => (okOut [] cwd, fs)
  | fs, recursive, a :: rest, cwd =>
    let rp := _path_resolve a cwd
    if !(fs.pathExists rp) then
      (errOut (str "rm: cannot remove '" ++ a ++
        str "': No such file or directory\n") cwd 1, fs)
    else if fs.isDir rp ∧ ¬recursive then
      (errOut (str "rm: cannot remove '" ++ a ++ str "': Is a directory\n") cwd 1, fs)
    else if fs.isDir rp then rmLoop (fs.rmtree rp) recursive rest cwd
    else rmLoop (fs.removeFile rp) recursive rest cwd

/-- `CommandExecutor._rm`. -/
def _rm (fs : FS) (args : List Str) (cwd : Str) : RRes × FS :=
  if args = [] then (errOut (str "rm: missing operand\n") cwd 2, fs)
  else
    let recursive := args.any (fun a => a == str "-r" || a == str "-rf" || a == str "-fr")
    let paths := args.filter
      (fun a => !(a == str "-r") && !(a == str "-rf") && !(a == str "-fr"))
    if paths = [] then (errOut (str "rm: missing path\n") cwd 2, fs)
    else rmLoop fs recursive paths cwd

/-- The per-argument loop of `_rmdir` (`os.rmdir` only removes empty
directories; the `OSError` is reported as "Directory not empty"). -/
def rmdirLoop : FS → List Str → Str → RRes × FS
  | fs, [], cwd => (okOut [] cwd, fs)
  | fs, a :: rest, cwd =>
    let path := _path_resolve a cwd
    if !(fs.pathExists path) then
      (errOut (str "rmdir: failed to remove '" ++ a ++
        str "': No such file or directory\n") cwd 1, fs)
    else if !(fs.isDir path) then
      (errOut (str "rmdir: failed to remove '" ++ a ++ str "': Not a directory\n") cwd 1, fs)
    else if fs.listdir path ≠ [] then
      (errOut (str "rmdir: failed to remove '" ++ a ++
        str "': Directory not empty\n") cwd 1, fs)
    else rmdirLoop (fs.removeFile path) rest cwd

/-- `CommandExecutor._rmdir`. -/
def _rmdir (fs : FS) (args : List Str) (cwd : Str) : RRes × FS :=
  if args = [] then (errOut (str "rmdir: missing operand\n") cwd 2, fs)
  else rmdirLoop fs args cwd

/-- `CommandExecutor._echo`. -/
def _echo (fs : FS) (args : List Str) (cwd : Str) : RRes × FS :=
  if (str ">") ∈ args then
    let idx := args.findIdx (fun a => a == str ">")
    let text := joinStr (str " ") (args.take idx)
    match args[idx + 1]? with
    | none => (errOut (str "echo: redirection error: list index out of range\n") cwd 1, fs)
    | some a =>
      match fs.writeStr (_path_resolve a cwd) (str "w") (text ++ ['\n']) with
      | .ok fs' => (okOut [] cwd, fs')
      | .error e => (errOut (str "echo: redirection error: " ++ e ++ ['\n']) cwd 1, fs)
  else if (str ">>") ∈ args then
    let idx := args.findIdx (fun a => a == str ">>")
    let text := joinStr (str " ") (args.take idx)
    match args[idx + 1]? with
    | none => (errOut (str "echo: redirection error: list index out of range\n") cwd 1, fs)
    | some a =>
      match fs.writeStr (_path_resolve a cwd) (str "a") (text ++ ['\n']) with
      | .ok fs' => (okOut [] cwd, fs')
      | .error e => (errOut (str "echo: redirection error: " ++ e ++ ['\n']) cwd 1, fs)
  else (okOut (joinStr (str " ") args ++ ['\n']) cwd, fs)

/-- The source-reading loop shared by `_cat`'s branches: returns the error
result of the first missing/directory source, or all file contents. -/
def catReadAll (fs : FS) : List Str → Str → Except RRes (List Str)
  | [], _ => .ok []
  | a :: rest, cwd =>
    let p := _path_resolve a cwd
    if !(fs.pathExists p) then
      .error (errOut (str "cat: " ++ a ++ str ": No such file or directory\n") cwd 1)
    else if fs.isDir p then
      .error (errOut (str "cat: " ++ a ++ str ": Is a directory\n") cwd 1)
    else (catReadAll fs rest cwd).map (fun l => fs.readFile p :: l)

/-- `CommandExecutor._cat` (lines 347-442): heredoc signalling, immediate
`>>`/`>` redirection, raw-input signalling, and plain display. -/
def _cat (fs : FS) (args : List Str) (cwd : Str) : RRes × FS :=
  if (str "<<") ∈ args then
    let heredocIdx := args.findIdx (fun a => a == str "<<")
    let redirect : Option (Nat × Str) :=
      if (str ">>") ∈ args then some (args.findIdx (fun a => a == str ">>"), str "a")
      else if (str ">") ∈ args then some (args.findIdx (fun a => a == str ">"), str "w")
      else none
    match redirect with
    | none => (errOut (str "cat: invalid syntax, use: cat [>>|>] file << EOF\n") cwd 2, fs)
    | some (redirectIdx, mode) =>
      if heredocIdx < redirectIdx then
        (errOut (str "cat: invalid syntax, use: cat [>>|>] file << EOF\n") cwd 2, fs)
      else
        match args[redirectIdx + 1]? with
        | none => (errOut (str "cat: heredoc error: list index out of range\n") cwd 1, fs)
        | some fa =>
          let filepath := _path_resolve fa cwd
          let delimiter := (args[heredocIdx + 1]?).getD (str "EOF")
          (okOut (str "HEREDOC_MODE:" ++ mode ++ str ":" ++ filepath ++ str ":" ++
            delimiter) cwd, fs)
  else if (str ">>") ∈ args then
    let idx := args.findIdx (fun a => a == str ">>")
    if idx = 0 then
      match args[1]? with
      | none => (errOut (str "cat: append error: list index out of range\n") cwd 1, fs)
      | some fa => (okOut (str "INPUT_MODE:a:" ++ _path_resolve fa cwd) cwd, fs)
    else
      match args[idx + 1]? with
      | none => (errOut (str "cat: append error: list index out of range\n") cwd 1, fs)
      | some fa =>
        match catReadAll fs (args.take idx) cwd with
        | .error r => (r, fs)
        | .ok parts =>
          match fs.writeStr (_path_resolve fa cwd) (str "a") (joinStr (str "\n") parts) with
          | .ok fs' => (okOut [] cwd, fs')
          | .error e => (errOut (str "cat: append error: " ++ e ++ ['\n']) cwd 1, fs)
  else if (str ">") ∈ args then
    let idx := args.findIdx (fun a => a == str ">")
    if idx = 0 then
      match args[1]? with
      | none => (errOut (str "cat: write error: list index out of range\n") cwd 1, fs)
      | some fa => (okOut (str "INPUT_MODE:w:" ++ _path_resolve fa cwd) cwd, fs)
    else
      match args[idx + 1]? with
      | none => (errOut (str "cat: write error: list index out of range\n") cwd 1, fs)
      | some fa =>
        match catReadAll fs (args.take idx) cwd with
        | .error r => (r, fs)
        | .ok parts =>
          match fs.writeStr (_path_resolve fa cwd) (str "w") (joinStr (str "\n") parts) with
          | .ok fs' => (okOut [] cwd, fs')
          | .error e => (errOut (str "cat: write error: " ++ e ++ ['\n']) cwd 1, fs)
  else if args = [] then (errOut (str "cat: missing file operand\n") cwd 2, fs)
  else
    match catReadAll fs args cwd with
    | .error r => (r, fs)
    | .ok parts => (okOut (joinStr (str "\n") parts) cwd, fs)

/-- The per-argument loop of `_touch`: `os.makedirs` on a missing parent,
then `open(p, "a")`; exceptions propagate to `run`'s catch-all. -/
def touchLoop : FS → List Str → Str → Except (Str × FS) (RRes × FS)
  | fs, [], cwd => .ok (okOut [] cwd, fs)
  | fs, a :: rest, cwd =>
    let p := _path_resolve a cwd
    let dirp := dirnameL p
    match (if dirp ≠ [] ∧ ¬fs.pathExists dirp then fs.makedirs dirp true else .ok fs) with
    | .error e => .error (e, fs)
    | .ok fs1 =>
      match fs1.writeStr p (str "a") [] with
      | .ok fs2 => touchLoop fs2 rest cwd
      | .error e => .error (e, fs1)

/-- `CommandExecutor._touch`. -/
def _touch (fs : FS) (args : List Str) (cwd : Str) : Except (Str × FS) (RRes × FS) :=
  if args = [] then .ok (errOut (str "touch: missing file operand\n") cwd 2, fs)
  else touchLoop fs args cwd

/-- Rewrite every path equal to `src` or below it to live at `dst`
(the path relocation effect of `shutil.move` / `shutil.copytree`). -/
def FS.relocate (fs : FS) (src dst : Str) : FS :=
  ⟨fs.entries.map (fun q =>
    if q.1 == src then (dst, q.2)
    else if isUnder src q.1 then (dst ++ q.1.drop src.length, q.2)
    else q)⟩

/-- `shutil.move(src, dst)`: requires the destination's parent directory;
an existing destination entry is replaced. -/
def moveEntry (fs : FS) (src dst : Str) : Except Str FS :=
  if !(fs.isDir (dirnameL dst)) then
    .error (str "[Errno 2] No such file or directory: '" ++ dst ++ str "'")
  else .ok (FS.relocate (fs.rmtree dst) src dst)

/-- The per-source loop of `_mv` (inside its `try`): a missing source
returns normally; a move failure is reported as `mv error`. -/
def mvLoop : FS → List Str → Str → Str → RRes × FS
  | fs, [], cwd, _ => (okOut [] cwd, fs)
  | fs, s :: rest, cwd, dest =>
    if !(fs.pathExists s) then
      (errOut (str "mv: cannot stat '" ++ s ++
        str "': No such file or directory\n") cwd 1, fs)
    else
      let target := if fs.isDir dest then pyJoin dest (basenameL s) else dest
      match moveEntry fs s target with
      | .ok fs' => mvLoop fs' rest cwd dest
      | .error e => (errOut (str "mv error: " ++ e ++ ['\n']) cwd 1, fs)

/-- `CommandExecutor._mv`. -/
def _mv (fs : FS) (args : List Str) (cwd : Str) : RRes × FS :=
  if args.length < 2 then (errOut (str "mv: missing file operands\n") cwd 2, fs)
  else
    let srcs := args.dropLast.map (fun a => _path_resolve a cwd)
    let dest := _path_resolve (args.getLast?.getD []) cwd
    if srcs.length > 1 ∧ ¬fs.isDir dest then
      (errOut (str "mv: target is not a directory\n") cwd 1, fs)
    else mvLoop fs srcs cwd dest

/-- `shutil.copy2(src, dst)` for a regular source file. -/
def copy2Model (fs : FS) (src dst : Str) : Except Str FS :=
  if fs.isDir dst then .error (str "[Errno 21] Is a directory: '" ++ dst ++ str "'")
  else if !(fs.isDir (dirnameL dst)) then
    .error (str "[Errno 2] No such file or directory: '" ++ dst ++ str "'")
  else .ok (fs.set dst (.file (fs.readFile src)))

/-- `shutil.copytree(src, dst)`: fails if `dst` already exists, otherwise
copies the whole subtree. -/
def copyTreeModel (fs : FS) (src dst : Str) : Except Str FS :=
  if fs.pathExists dst then .error (str "[Errno 17] File exists: '" ++ dst ++ str "'")
  else .ok ⟨(dst, Entry.dir) :: (fs.entries.filterMap (fun q =>
    if isUnder src q.1 then some (dst ++ q.1.drop src.length, q.2) else none))
      ++ fs.entries⟩

/-- The per-source loop of `_cp` (inside its `try`). -/
def cpLoop : FS → List Str → Str → Str → Bool → RRes × FS
  | fs, [], cwd, _, _ => (okOut [] cwd, fs)
  | fs, s :: rest, cwd, dest, recursive =>
    if !(fs.pathExists s) then
      (errOut (str "cp: cannot stat '" ++ s ++
        str "': No such file or directory\n") cwd 1, fs)
    else if fs.isDir s then
      if ¬recursive then
        (errOut (str "cp: -r not specified; omitting directory '" ++ s ++ str "'\n") cwd 1, fs)
      else
        match copyTreeModel fs s (pyJoin dest (basenameL s)) with
        | .ok fs' => cpLoop fs' rest cwd dest recursive
        | .error e => (errOut (str "cp error: " ++ e ++ ['\n']) cwd 1, fs)
    else
      let tgt := if fs.isDir dest then pyJoin dest (basenameL s) else dest
      match copy2Model fs s tgt with
      | .ok fs' => cpLoop fs' rest cwd dest recursive
      | .error e => (errOut (str "cp error: " ++ e ++ ['\n']) cwd 1, fs)

/-- `CommandExecutor._cp`. -/
def _cp (fs : FS) (args : List Str) (cwd : Str) : RRes × FS :=
  if args.length < 2 then (errOut (str "cp: missing file operands\n") cwd 2, fs)
  else
    let recursive := (str "-r") ∈ args
    let files := args.filter (fun a => !(a == str "-r"))
    if files.length < 2 then
      (errOut (str "cp: missing destination file operand after source\n") cwd 2, fs)
    else
      let srcs := files.dropLast.map (fun a => _path_resolve a cwd)
      let dest := _path_resolve (files.getLast?.getD []) cwd
      if srcs.length > 1 ∧ ¬fs.isDir dest then
        (errOut (str "cp: target is not a directory\n") cwd 1, fs)
      else cpLoop fs srcs cwd dest recursive

/-- `CommandExecutor._cpu`: formats the sampled CPU percentage and returns
`None` in the working-directory slot. -/
def _cpu (M : Metrics) : RRes :=
  ⟨str "CPU: " ++ M.cpuPercent ++ str "%\n", [], none, 0⟩

/-- `CommandExecutor._mem`. -/
def _mem (M : Metrics) : RRes :=
  ⟨str "Memory: " ++ M.memUsed ++ ['/'] ++ M.memTotal ++ str " bytes (" ++
    M.memPercent ++ str "%)\n", [], none, 0⟩

/-- `CommandExecutor._ps`: the externally formatted per-process lines,
sorted, capped at 200. -/
def _ps (M : Metrics) : RRes :=
  ⟨joinStr (str "\n") ((sortedPy M.procLines).take 200) ++ ['\n'], [], none, 0⟩

/-- `CommandExecutor._uptime`. -/
def _uptime (M : Metrics) : RRes :=
  ⟨str "up " ++ M.upDays ++ str " days, " ++ M.upHours ++ [':'] ++
    M.upMinutes ++ ['\n'], [], none, 0⟩

/-- `CommandExecutor._df` (lines 723-728): note that, unlike `_cpu`/`_mem`/
`_ps`/`_uptime`, it returns `cwd` — not `None` — in the working-directory
slot. -/
def _df (M : Metrics) (cwd : Str) : RRes :=
  okOut (str "Filesystem     Size      Used     Avail    Use%\n" ++
    str "root      " ++ M.dfTotal ++ [' '] ++ M.dfUsed ++ [' '] ++ M.dfFree ++
    str "  " ++ M.dfPercent ++ str "%\n") cwd

/-- The `-n` flag scan shared by `_head` and `_tail`: `.error` models the
early "invalid number of lines" return; the last positional argument wins. -/
def headTailScan : List Str → Int → Option Str → Except Unit (Int × Option Str)
  | [], n, f => .ok (n, f)
  | [a], n, _ => .ok (n, some a)
  | a :: b :: rest, n, f =>
    if a = str "-n" then
      match pyInt? b with
      | some k => headTailScan rest k f
      | none => .error ()
    else headTailScan (b :: rest) n (some a)

/-- `CommandExecutor._head`: `"".join(f.readline() for _ in range(n))`. -/
def _head (fs : FS) (args : List Str) (cwd : Str) : RRes :=
  match headTailScan args 10 none with
  | .error _ => errOut (str "head: invalid number of lines\n") cwd 1
  | .ok (_, none) => errOut (str "head: missing file operand\n") cwd 2
  | .ok (n, some fp) =>
    let p := _path_resolve fp cwd
    if !(fs.pathExists p) then
      errOut (str "head: " ++ fp ++ str ": No such file or directory\n") cwd 1
    else if fs.isDir p then
      errOut (str "head: " ++ fp ++ str ": Is a directory\n") cwd 1
    else okOut (concatL ((linesKE (fs.readFile p)).take n.toNat)) cwd

/-- `CommandExecutor._tail`: `"".join(all_lines[-n:])`. -/
def _tail (fs : FS) (args : List Str) (cwd : Str) : RRes :=
  match headTailScan args 10 none with
  | .error _ => errOut (str "tail: invalid number of lines\n") cwd 1
  | .ok (_, none) => errOut (str "tail: missing file operand\n") cwd 2
  | .ok (n, some fp) =>
    let p := _path_resolve fp cwd
    if !(fs.pathExists p) then
      errOut (str "tail: " ++ fp ++ str ": No such file or directory\n") cwd 1
    else if fs.isDir p then
      errOut (str "tail: " ++ fp ++ str ": Is a directory\n") cwd 1
    else okOut (concatL (pySliceFrom (-n) (linesKE (fs.readFile p)))) cwd

/-- The per-file loop of `_wc`. -/
def wcLoop (fs : FS) : List Str → Str → Except RRes (List Str)
  | [], _ => .ok []
  | a :: rest, cwd =>
    let p := _path_resolve a cwd
    if !(fs.pathExists p) then
      .error (errOut (str "wc: " ++ a ++ str ": No such file or directory\n") cwd 1)
    else if fs.isDir p then
      .error (errOut (str "wc: " ++ a ++ str ": Is a directory\n") cwd 1)
    else
      let content := fs.readFile p
      let line := padLeft 7 (natToStr (content.count '\n')) ++ [' '] ++
        padLeft 7 (natToStr (pyWords content).length) ++ [' '] ++
        padLeft 7 (natToStr content.length) ++ [' '] ++ a
      (wcLoop fs rest cwd).map (fun l => line :: l)

/-- `CommandExecutor._wc`. -/
def _wc (fs : FS) (args : List Str) (cwd : Str) : RRes :=
  if args = [] then errOut (str "wc: missing file operand\n") cwd 2
  else
    match wcLoop fs args cwd with
    | .error r => r
    | .ok results => okOut (joinStr (str "\n") results ++ ['\n']) cwd

/-- Python's `in` on strings: `pat` occurs as a contiguous substring. -/
def isSubstr (pat : Str) : Str → Bool
  | [] => pat == []
  | c :: rest => pat.isPrefixOf (c :: rest) || isSubstr pat rest

/-- The `line_num:line.rstrip()` records collected by `_grep`'s loop; the
pattern is matched as a literal substring of each line (newline included). -/
def grepMatches (pattern content : Str) : List Str :=
  ((linesKE content).enumFrom 1).filterMap (fun t =>
    if isSubstr pattern t.2 then some (natToStr t.1 ++ [':'] ++ pyRstrip t.2)
    else none)

/-- `CommandExecutor._grep`. -/
def _grep (fs : FS) (args : List Str) (cwd : Str) : RRes :=
  match args with
  | pattern :: fp :: _ =>
    let p := _path_resolve fp cwd
    if !(fs.pathExists p) then
      errOut (str "grep: " ++ fp ++ str ": No such file or directory\n") cwd 1
    else if fs.isDir p then
      errOut (str "grep: " ++ fp ++ str ": Is a directory\n") cwd 1
    else
      let ms := grepMatches pattern (fs.readFile p)
      if ms ≠ [] then okOut (joinStr (str "\n") ms ++ ['\n']) cwd
      else ⟨[], [], some cwd, 1⟩
  | _ => errOut (str "grep: missing pattern or file\n") cwd 2

/-- The argument scan of `_find` (lines 646-655). -/
def findScan (cwd : Str) : List Str → Str → Option Str → Str × Option Str
  | [], start, pat => (start, pat)
  | [a], start, pat =>
    if a = str "-name" then (start, pat)
    else if !(startsWithL (str "-") a) then (_path_resolve a cwd, pat)
    else (start, pat)
  | a :: b :: rest, start, pat =>
    if a = str "-name" then findScan cwd rest start (some b)
    else if !(startsWithL (str "-") a) then findScan cwd (b :: rest) (_path_resolve a cwd) pat
    else findScan cwd (b :: rest) start pat

/-- `CommandExecutor._find`. -/
def _find (fs : FS) (args : List Str) (cwd : Str) : RRes :=
  match findScan cwd args cwd none with
  | (start, pat) =>
    if !(fs.pathExists start) then
      errOut (str "find: '" ++ start ++ str "': No such file or directory\n") cwd 1
    else
      let results := (fs.walk start).foldl (fun r t =>
        r ++ (t.2.2 ++ t.2.1).filterMap (fun nm =>
          if (match pat with | none => true | some pp => isSubstr pp nm) then
            some (pyJoin t.1 nm)
          else none)) []
      okOut (joinStr (str "\n") results ++ (if results ≠ [] then ['\n'] else [])) cwd

/-- `build_tree` from `_tree`, fuelled on recursion depth; the list argument
is the sorted entry list still to be rendered at this level. -/
def buildTreeAux : Nat → FS → Str → Str → List Str → List Str
  | _, _, _, _, [] => []
  | fuel, fs, path, pre, [e] =>
    let full := pyJoin path e
    (pre ++ str "└── " ++ e) ::
      (if fs.isDir full then
        match fuel with
        | 0 => []
        | m + 1 => buildTreeAux m fs full (pre ++ str "    ") (sortedPy (fs.listdir full))
      else [])
  | fuel, fs, path, pre, e :: rest =>
    ((pre ++ str "├── " ++ e) ::
      (if fs.isDir (pyJoin path e) then
        match fuel with
        | 0 => []
        | m + 1 => buildTreeAux m fs (pyJoin path e) (pre ++ str "│   ")
            (sortedPy (fs.listdir (pyJoin path e)))
      else [])) ++ buildTreeAux fuel fs path pre rest
  termination_by fuel _ _ _ l => (fuel, l.length)

/-- `CommandExecutor._tree` (the `IndexError` of the error message on empty
`args` propagates as an exception). -/
def _tree (fs : FS) (args : List Str) (cwd : Str) : Except Str RRes :=
  let start :=
    match args with
    | [] => cwd
    | a :: _ => _path_resolve a cwd
  if !(fs.pathExists start) then
    match args with
    | [] => .error (str "list index out of range")
    | a :: _ => .ok (errOut (str "tree: " ++ a ++ str ": No such file or directory\n") cwd 1)
  else
    .ok (okOut (joinStr (str "\n")
      (start :: buildTreeAux fs.entries.length fs start []
        (sortedPy (fs.listdir start))) ++ ['\n']) cwd)

/-- `CommandExecutor._du`. -/
def _du (M : Metrics) (fs : FS) (args : List Str) (cwd : Str) : Except Str RRes :=
  let target :=
    match args with
    | [] => cwd
    | a :: _ => _path_resolve a cwd
  if !(fs.pathExists target) then
    match args with
    | [] => .error (str "list index out of range")
    | a :: _ => .ok (errOut (str "du: " ++ a ++ str ": No such file or directory\n") cwd 1)
  else if fs.isFile target then
    .ok (okOut (intToStr (getsize M fs target) ++ ['\t'] ++ target ++ ['\n']) cwd)
  else
    let total := (fs.walk target).foldl (fun t tr =>
      tr.2.2.foldl (fun t2 f => t2 + getsize M fs (pyJoin tr.1 f)) t) 0
    .ok (okOut (intToStr total ++ ['\t'] ++ target ++ ['\n']) cwd)

/-- `CommandExecutor._stat`. -/
def _stat (M : Metrics) (fs : FS) (args : List Str) (cwd : Str) : RRes :=
  match args with
  | [] => errOut (str "stat: missing file operand\n") cwd 2
  | fp :: _ =>
    let p := _path_resolve fp cwd
    if !(fs.pathExists p) then
      errOut (str "stat: " ++ fp ++ str ": No such file or directory\n") cwd 1
    else
      okOut (str "  File: " ++ fp ++ ['\n'] ++
        str "  Size: " ++ intToStr (getsize M fs p) ++ ['\n'] ++
        str "  Mode: " ++ M.statMode p ++ ['\n'] ++
        str "Access: " ++ M.atimeOf p ++ ['\n'] ++
        str "Modify: " ++ M.mtimeOf p ++ ['\n'] ++
        str "Change: " ++ M.ctimeOf p ++ ['\n']) cwd

/-- `CommandExecutor._chmod` (`os.chmod` itself is not modelled beyond
success; permission bits are outside the filesystem model). -/
def _chmod (fs : FS) (args : List Str) (cwd : Str) : RRes :=
  match args with
  | modeStr :: fp :: _ =>
    match pyIntOct? modeStr with
    | none => errOut (str "chmod: invalid mode: '" ++ modeStr ++ str "'\n") cwd 1
    | some _ =>
      let p := _path_resolve fp cwd
      if !(fs.pathExists p) then
        errOut (str "chmod: " ++ fp ++ str ": No such file or directory\n") cwd 1
      else okOut [] cwd
  | _ => errOut (str "chmod: missing operands\n") cwd 2

/-- `CommandExecutor._date`. -/
def _date (M : Metrics) (cwd : Str) : RRes := okOut (M.dateStr ++ ['\n']) cwd

/-- `CommandExecutor._whoami`. -/
def _whoami (M : Metrics) (cwd : Str) : RRes := okOut (M.userName ++ ['\n']) cwd

/-- `CommandExecutor._hostname`. -/
def _hostname (M : Metrics) (cwd : Str) : RRes := okOut (M.hostName ++ ['\n']) cwd

/-- The per-file loop shared by `_md5sum` and `_sha256sum`: `hx` is the
hex digest of the external hash. -/
def sumLoop (hx : Str → Str) (tag : Str) (fs : FS) : List Str → Str → Except RRes (List Str)
  | [], _ => .ok []
  | a :: rest, cwd =>
    let p := _path_resolve a cwd
    if !(fs.pathExists p) then
      .error (errOut (tag ++ str ": " ++ a ++ str ": No such file or directory\n") cwd 1)
    else if fs.isDir p then
      .error (errOut (tag ++ str ": " ++ a ++ str ": Is a directory\n") cwd 1)
    else (sumLoop hx tag fs rest cwd).map (fun l => (hx (fs.readFile p) ++ str "  " ++ a) :: l)

/-- `CommandExecutor._md5sum`. -/
def _md5sum (M : Metrics) (fs : FS) (args : List Str) (cwd : Str) : RRes :=
  if args = [] then errOut (str "md5sum: missing file operand\n") cwd 2
  else
    match sumLoop M.md5Hex (str "md5sum") fs args cwd with
    | .error r => r
    | .ok results => okOut (joinStr (str "\n") results ++ ['\n']) cwd

/-- `CommandExecutor._sha256sum`. -/
def _sha256sum (M : Metrics) (fs : FS) (args : List Str) (cwd : Str) : RRes :=
  if args = [] then errOut (str "sha256sum: missing file operand\n") cwd 2
  else
    match sumLoop M.sha256Hex (str "sha256sum") fs args cwd with
    | .error r => r
    | .ok results => okOut (joinStr (str "\n") results ++ ['\n']) cwd

/-- `CommandExecutor._clear`: 50 blank lines. -/
def _clear (cwd : Str) : RRes := okOut (List.replicate 50 '\n') cwd

/-- The `supported_commands` list of `_which`. -/
def supportedCommands : List Str :=
  [str "pwd", str "ls", str "cd", str "mkdir", str "rm", str "rmdir", str "cat",
   str "touch", str "mv", str "cp", str "echo", str "cpu", str "mem", str "ps",
   str "head", str "tail", str "wc", str "grep", str "find", str "tree", str "du",
   str "df", str "stat", str "chmod", str "date", str "uptime", str "whoami",
   str "hostname", str "md5sum", str "sha256sum", str "clear", str "which", str "help"]

/-- `CommandExecutor._which`. -/
def _which (args : List Str) (cwd : Str) : RRes :=
  match args with
  | [] => errOut (str "which: missing command\n") cwd 2
  | c :: _ =>
    if c ∈ supportedCommands then okOut (str "/usr/bin/" ++ c ++ ['\n']) cwd
    else errOut (str "which: no " ++ c ++ str " in built-in commands\n") cwd 1

/-- `CommandExecutor._help_text`. -/
def _help_text : Str :=
  str "Supported commands:\n" ++
  str "File Operations:\n" ++
  str "  pwd                          - Print working directory\n" ++
  str "  ls [-l] [-a] [path]          - List directory contents\n" ++
  str "  cd <path>                    - Change directory\n" ++
  str "  mkdir <name>                 - Create directory\n" ++
  str "  rmdir <name>                 - Remove empty directory\n" ++
  str "  rm [-r] <path>               - Remove file or directory\n" ++
  str "  cat <file>                   - Display file contents\n" ++
  str "  touch <file>                 - Create empty file or update timestamp\n" ++
  str "  mv <src> <dest>              - Move/rename files\n" ++
  str "  cp [-r] <src> <dest>         - Copy files or directories\n" ++
  str "  head [-n num] <file>         - Display first lines of file (default 10)\n" ++
  str "  tail [-n num] <file>         - Display last lines of file (default 10)\n" ++
  str "  wc <file>                    - Count lines, words, characters\n" ++
  str "  grep <pattern> <file>        - Search for pattern in file\n" ++
  str "  find [path] [-name pattern]  - Find files matching pattern\n" ++
  str "\n" ++
  str "File Information:\n" ++
  str "  stat <file>                  - Display file status and metadata\n" ++
  str "  chmod <mode> <file>          - Change file permissions (octal)\n" ++
  str "  du [path]                    - Display disk usage\n" ++
  str "  df                           - Display filesystem disk space\n" ++
  str "  tree [path]                  - Display directory tree structure\n" ++
  str "  md5sum <file>                - Calculate MD5 checksum\n" ++
  str "  sha256sum <file>             - Calculate SHA256 checksum\n" ++
  str "\n" ++
  str "Text Output:\n" ++
  str "  echo [text]                  - Print text to stdout\n" ++
  str "  echo [text] > file           - Write text to file (overwrite)\n" ++
  str "  echo [text] >> file          - Append text to file\n" ++
  str "  cat <file>                   - Display file contents\n" ++
  str "  cat > file                   - Write input to file (empty line to end)\n" ++
  str "  cat >> file                  - Append input to file (empty line to end)\n" ++
  str "  cat >> file << EOF           - Heredoc: write until EOF is entered\n" ++
  str "\n" ++
  str "System Information:\n" ++
  str "  cpu                          - Display CPU usage\n" ++
  str "  mem                          - Display memory usage\n" ++
  str "  ps                           - List running processes\n" ++
  str "  date                         - Display current date and time\n" ++
  str "  uptime                       - Display system uptime\n" ++
  str "  whoami                       - Display current user\n" ++
  str "  hostname                     - Display system hostname\n" ++
  str "\n" ++
  str "Utilities:\n" ++
  str "  clear                        - Clear screen\n" ++
  str "  which <cmd>                  - Show command location\n" ++
  str "  help                         - Display this help message\n"

/-! ### The interpreter state machine (`CommandExecutor.run`) -/

/-- The `heredoc_mode` dictionary of `CommandExecutor`. -/
structure HeredocS where
  mode : Str
  filepath : Str
  delimiter : Str
  lines : List Str
deriving DecidableEq

/-- The `input_mode` dictionary of `CommandExecutor`. -/
structure InputS where
  mode : Str
  filepath : Str
  lines : List Str
deriving DecidableEq

/-- The mutable state of a `CommandExecutor` instance together with the
external filesystem it acts on. -/
structure St where
  heredoc : Option HeredocS
  inputMode : Option InputS
  fs : FS
deriving DecidableEq

/-- `run`'s catch-all handler (lines 201-202): `Error: {e}` with exit 1. -/
def catchAll (cwd : Str) (e : Str) : RRes :=
  errOut (str "Error: " ++ e ++ ['\n']) cwd 1

/-- Tokenization and verb dispatch (lines 67-202) including the `cat`
special-mode inspection (lines 98-118); assumes no session is active.  The
two returned options are the new `(heredoc_mode, input_mode)`.  `.error`
models the one uncaught exception: `parts[0]` on an empty token list
(line 76, outside the `try`). -/
def dispatchLine (M : Metrics) (fs : FS) (raw : Str) (cwd : Str) :
    Except Str (RRes × FS × Option HeredocS × Option InputS) :=
  if raw = [] then .ok (okOut [] cwd, fs, none, none)
  else
    match shlexSplit raw with
    | .error e => .ok (⟨[], str "parse error: " ++ e, some cwd, 2⟩, fs, none, none)
    | .ok [] => .error (str "list index out of range")
    | .ok (cmd :: args) =>
      if cmd = str "pwd" then .ok (okOut (cwd ++ ['\n']) cwd, fs, none, none)
      else if cmd = str "ls" then .ok (_ls M fs args cwd, fs, none, none)
      else if cmd = str "cd" then
        match _cd M fs args cwd with
        | .ok r => .ok (r, fs, none, none)
        | .error e => .ok (catchAll cwd e, fs, none, none)
      else if cmd = str "mkdir" then
        match _mkdir fs args cwd with
        | .ok (r, fs') => .ok (r, fs', none, none)
        | .error (e, fs') => .ok (catchAll cwd e, fs', none, none)
      else if cmd = str "rm" then
        match _rm fs args cwd with
        | (r, fs') => .ok (r, fs', none, none)
      else if cmd = str "rmdir" then
        match _rmdir fs args cwd with
        | (r, fs') => .ok (r, fs', none, none)
      else if cmd = str "cat" then
        match _cat fs args cwd with
        | (r, fs') =>
          if startsWithL (str "HEREDOC_MODE:") r.out then
            match pySplitMax ':' 3 r.out with
            | [_, m, f, d] => .ok (okOut (str "> ") cwd, fs', some ⟨m, f, d, []⟩, none)
            | _ => .ok (catchAll cwd (str "list index out of range"), fs', none, none)
          else if startsWithL (str "INPUT_MODE:") r.out then
            match pySplitMax ':' 2 r.out with
            | [_, m, f] => .ok (okOut (str "> ") cwd, fs', none, some ⟨m, f, []⟩)
            | _ => .ok (catchAll cwd (str "list index out of range"), fs', none, none)
          else .ok (r, fs', none, none)
      else if cmd = str "touch" then
        match _touch fs args cwd with
        | .ok (r, fs') => .ok (r, fs', none, none)
        | .error (e, fs') => .ok (catchAll cwd e, fs', none, none)
      else if cmd = str "mv" then
        match _mv fs args cwd with
        | (r, fs') => .ok (r, fs', none, none)
      else if cmd = str "cp" then
        match _cp fs args cwd with
        | (r, fs') => .ok (r, fs', none, none)
      else if cmd = str "echo" then
        match _echo fs args cwd with
        | (r, fs') => .ok (r, fs', none, none)
      else if cmd = str "cpu" then .ok (_cpu M, fs, none, none)
      else if cmd = str "mem" then .ok (_mem M, fs, none, none)
      else if cmd = str "ps" then .ok (_ps M, fs, none, none)
      else if cmd = str "head" then .ok (_head fs args cwd, fs, none, none)
      else if cmd = str "tail" then .ok (_tail fs args cwd, fs, none, none)
      else if cmd = str "wc" then .ok (_wc fs args cwd, fs, none, none)
      else if cmd = str "grep" then .ok (_grep fs args cwd, fs, none, none)
      else if cmd = str "find" then .ok (_find fs args cwd, fs, none, none)
      else if cmd = str "tree" then
        match _tree fs args cwd with
        | .ok r => .ok (r, fs, none, none)
        | .error e => .ok (catchAll cwd e, fs, none, none)
      else if cmd = str "du" then
        match _du M fs args cwd with
        | .ok r => .ok (r, fs, none, none)
        | .error e => .ok (catchAll cwd e, fs, none, none)
      else if cmd = str "df" then .ok (_df M cwd, fs, none, none)
      else if cmd = str "stat" then .ok (_stat M fs args cwd, fs, none, none)
      else if cmd = str "chmod" then .ok (_chmod fs args cwd, fs, none, none)
      else if cmd = str "date" then .ok (_date M cwd, fs, none, none)
      else if cmd = str "uptime" then .ok (_uptime M, fs, none, none)
      else if cmd = str "whoami" then .ok (_whoami M cwd, fs, none, none)
      else if cmd = str "hostname" then .ok (_hostname M cwd, fs, none, none)
      else if cmd = str "md5sum" then .ok (_md5sum M fs args cwd, fs, none, none)
      else if cmd = str "sha256sum" then .ok (_sha256sum M fs args cwd, fs, none, none)
      else if cmd = str "clear" then .ok (_clear cwd, fs, none, none)
      else if cmd = str "which" then .ok (_which args cwd, fs, none, none)
      else if cmd = str "help" ∨ cmd = str "--help" ∨ cmd = str "-h" then
        .ok (okOut _help_text cwd, fs, none, none)
      else .ok (errOut (str "Command not found: " ++ cmd ++ ['\n']) cwd 127, fs, none, none)

/-- Heredoc continuation (lines 28-45); the incoming line has already been
stripped by line 25. -/
def heredocStep (fs : FS) (h : HeredocS) (raw : Str) (cwd : Str) :
    RRes × Option HeredocS × FS :=
  if raw = h.delimiter then
    match fs.writeStr h.filepath h.mode (joinStr (str "\n") h.lines ++ ['\n']) with
    | .ok fs' => (okOut [] cwd, none, fs')
    | .error e => (errOut (str "cat: write error: " ++ e ++ ['\n']) cwd 1, none, fs)
  else (okOut (str "> ") cwd, some { h with lines := h.lines ++ [raw] }, fs)

/-- Raw-input continuation (lines 47-65); an empty (stripped) line ends the
session. -/
def inputStep (fs : FS) (m : InputS) (raw : Str) (cwd : Str) :
    RRes × Option InputS × FS :=
  if raw = [] then
    match fs.writeStr m.filepath m.mode (joinStr (str "\n") m.lines ++ ['\n']) with
    | .ok fs' => (okOut [] cwd, none, fs')
    | .error e => (errOut (str "cat: write error: " ++ e ++ ['\n']) cwd 1, none, fs)
  else (okOut (str "> ") cwd, some { m with lines := m.lines ++ [raw] }, fs)

/-- The `cwd = None` default of lines 21-23: substitute `"/tmp"` and run
`os.makedirs(cwd, exist_ok=True)`. -/
def cwdDefault (fs : FS) : Option Str → Except Str (Str × FS)
  | some c => .ok (c, fs)
  | none =>
    match fs.makedirs (str "/tmp") true with
    | .ok fs' => .ok (str "/tmp", fs')
    | .error e => .error e

/-- `CommandExecutor.run`.  The `.error` case models an exception escaping
`run` itself, which is only possible from the `cwd = None` `os.makedirs`
(line 23) or the unguarded `parts[0]` (line 76). -/
def run (M : Metrics) (st : St) (rawCmd : Str) (cwd? : Option Str) :
    Except Str (RRes × St) :=
  match cwdDefault st.fs cwd? with
  | .error e => .error e
  | .ok (cwd, fs0) =>
    let raw := pyStrip rawCmd
    match st.heredoc with
    | some h =>
      match heredocStep fs0 h raw cwd with
      | (r, hd, fs1) => .ok (r, ⟨hd, st.inputMode, fs1⟩)
    | none =>
      match st.inputMode with
      | some m =>
        match inputStep fs0 m raw cwd with
        | (r, im, fs1) => .ok (r, ⟨none, im, fs1⟩)
      | none =>
        match dispatchLine M fs0 raw cwd with
        | .error e => .error e
        | .ok (r, fs1, hd, im) => .ok (r, ⟨hd, im, fs1⟩)

/-- The session-handling part of `run` alone (lines 20-65): it performs no
tokenization and consults no dispatch table.  The final branch is
unreachable whenever a session is active. -/
def runSessionOnly (_M : Metrics) (st : St) (rawCmd : Str) (cwd? : Option Str) :
    Except Str (RRes × St) :=
  match cwdDefault st.fs cwd? with
  | .error e => .error e
  | .ok (cwd, fs0) =>
    let raw := pyStrip rawCmd
    match st.heredoc with
    | some h =>
      match heredocStep fs0 h raw cwd with
      | (r, hd, fs1) => .ok (r, ⟨hd, st.inputMode, fs1⟩)
    | none =>
      match st.inputMode with
      | some m =>
        match inputStep fs0 m raw cwd with
        | (r, im, fs1) => .ok (r, ⟨none, im, fs1⟩)
      | none => .ok (okOut [] cwd, ⟨none, none, fs0⟩)

/-- A fresh interpreter instance (`__init__`): no active session. -/
def freshSt (fs : FS) : St := ⟨none, none, fs⟩

/-- Fold `run` over a list of `(raw_cmd, cwd)` inputs, stopping if an
exception escapes (the hosting process would have terminated). -/
def runSeq (M : Metrics) : St → List (Str × Option Str) → St
  | st, [] => st
  | st, (raw, c) :: rest =>
    match run M st raw c with
    | .ok (_, st') => runSeq M st' rest
    | .error _ => st

/-! ### Concrete host environment and filesystems used by witnesses -/

/-- A concrete metrics record for witnesses. -/
def cM : Metrics where
  cpuPercent := str "7.0"
  memUsed := str "1024"
  memTotal := str "2048"
  memPercent := str "50.0"
  procLines := [str "     2 b", str "     1 a"]
  dfTotal := str "       100"
  dfUsed := str "        40"
  dfFree := str "        60"
  dfPercent := str " 40"
  upDays := str "1"
  upHours := str "2"
  upMinutes := str "03"
  userName := str "alice"
  hostName := str "host"
  dateStr := str "Mon Jan 01 00:00:00 2026"
  homeDir := str "/root"
  mtimeOf := fun _ => str "2026-01-01 00:00"
  atimeOf := fun _ => str "2026-01-01 00:00:00"
  ctimeOf := fun _ => str "2026-01-01 00:00:00"
  statMode := fun _ => str "0o100644"
  dirSize := fun _ => 4096
  md5Hex := fun _ => str "d41d8cd98f00b204e9800998ecf8427e"
  sha256Hex := fun _ => str "e3b0c44298fc1c149afbf4c8996fb92427ae41e4649b934ca495991b7852b855"

/-- A concrete filesystem: just `/` and `/tmp`. -/
def cFS : FS := ⟨[(str "/", .dir), (str "/tmp", .dir)]⟩

/-- A concrete filesystem with a non-empty directory `/tmp/d`. -/
def dFS : FS :=
  ⟨[(str "/", .dir), (str "/tmp", .dir), (str "/tmp/d", .dir),
    (str "/tmp/d/f", .file (str "z"))]⟩

/-- A concrete filesystem with `/tmp/g.txt` containing `"foo\nbar\nfoobar\n"`. -/
def gFS : FS :=
  ⟨[(str "/", .dir), (str "/tmp", .dir),
    (str "/tmp/g.txt", .file (str "foo\nbar\nfoobar\n"))]⟩

/-- A concrete filesystem with `/tmp/h.txt` containing a line with trailing
whitespace. -/
def hFS : FS :=
  ⟨[(str "/", .dir), (str "/tmp", .dir), (str "/tmp/h.txt", .file (str "foo \n"))]⟩

/-! ### The three modes of `run` -/

theorem run_heredoc (M : Metrics) (st : St) (raw : Str) (cwd : Str) (h : HeredocS)
    (hhd : st.heredoc = some h) :
    run M st raw (some cwd) =
      (match heredocStep st.fs h (pyStrip raw) cwd with
       | (r, hd, fs1) => .ok (r, ⟨hd, st.inputMode, fs1⟩)) := by
  rcases st with ⟨shd, sim, sfs⟩
  obtain rfl : shd = some h := hhd
  rfl

theorem run_input (M : Metrics) (st : St) (raw : Str) (cwd : Str) (m : InputS)
    (hhd : st.heredoc = none) (him : st.inputMode = some m) :
    run M st raw (some cwd) =
      (match inputStep st.fs m (pyStrip raw) cwd with
       | (r, im, fs1) => .ok (r, ⟨none, im, fs1⟩)) := by
  rcases st with ⟨shd, sim, sfs⟩
  obtain rfl : shd = none := hhd
  obtain rfl : sim = some m := him
  rfl

theorem run_no_session (M : Metrics) (st : St) (raw : Str) (cwd : Str)
    (hhd : st.heredoc = none) (him : st.inputMode = none) :
    run M st raw (some cwd) =
      (match dispatchLine M st.fs (pyStrip raw) cwd with
       | .error e => .error e
       | .ok (r, fs1, hd, im) => .ok (r, ⟨hd, im, fs1⟩)) := by
  rcases st with ⟨shd, sim, sfs⟩
  obtain rfl : shd = none := hhd
  obtain rfl : sim = none := him
  rfl

/-! ### Claim C2: heredoc line capture -/

/-- C2 (amended): while a heredoc session is active, an input line whose
*stripped* form differs from the terminator is appended to the buffer *after
stripping leading and trailing whitespace* (line 25 strips every incoming
line before the session logic sees it), and the invocation returns the
continuation prompt marker `"> "` with exit code 0. -/
theorem heredoc_line_captured (M : Metrics) (st : St) (h : HeredocS) (raw : Str)
    (cwd : Str) (hhd : st.heredoc = some h) (hne : pyStrip raw ≠ h.delimiter) :
    run M st raw (some cwd) =
      .ok (⟨str "> ", [], some cwd, 0⟩,
        ⟨some { h with lines := h.lines ++ [pyStrip raw] }, st.inputMode, st.fs⟩) := by
  rw [run_heredoc M st raw cwd h hhd]
  unfold heredocStep
  rw [if_neg hne]
  rfl

/-- C2 counterexample: with a heredoc session active (terminator `"EOF"`,
empty buffer), the input line `"  x  "` is buffered as `"x"` — not verbatim:
the line's leading and trailing whitespace is stripped before it is
appended. -/
theorem heredoc_not_verbatim_counterexample :
    run cM ⟨some ⟨str "a", str "/tmp/log.txt", str "EOF", []⟩, none, cFS⟩ (str "  x  ")
        (some (str "/tmp")) =
      .ok (⟨str "> ", [], some (str "/tmp"), 0⟩,
        ⟨some ⟨str "a", str "/tmp/log.txt", str "EOF", [str "x"]⟩, none, cFS⟩) ∧
    [str "x"] ≠ [str "  x  "] :=
  ⟨rfl, by decide⟩

/-- Witness for C2 at a concrete input. -/
theorem heredoc_line_captured_witness :
    pyStrip (str "x") ≠ str "EOF" ∧
      run cM ⟨some ⟨str "a", str "/tmp/log.txt", str "EOF", []⟩, none, cFS⟩ (str "x")
          (some (str "/tmp")) =
        .ok (⟨str "> ", [], some (str "/tmp"), 0⟩,
          ⟨some ⟨str "a", str "/tmp/log.txt", str "EOF", [str "x"]⟩, none, cFS⟩) :=
  ⟨by decide,
    heredoc_line_captured cM ⟨some ⟨str "a", str "/tmp/log.txt", str "EOF", []⟩, none, cFS⟩
      ⟨str "a", str "/tmp/log.txt", str "EOF", []⟩ (str "x") (str "/tmp") rfl (by decide)⟩

/-! ### Claim C5: flush failure discards the session -/

/-- C5: for both session flavors, when the terminating condition is met and
the flush write fails, the session is cleared unconditionally, the buffered
content is discarded (the filesystem is unchanged and nothing is retried),
and the invocation returns `cat: write error: ...` with exit code 1. -/
theorem session_flush_failure (M : Metrics) (st : St) (raw : Str) (cwd : Str) (e : Str)
    (h : (∃ hd, st.heredoc = some hd ∧ st.inputMode = none ∧
            pyStrip raw = hd.delimiter ∧
            st.fs.writeStr hd.filepath hd.mode
              (joinStr (str "\n") hd.lines ++ ['\n']) = .error e) ∨
         (∃ im, st.heredoc = none ∧ st.inputMode = some im ∧ pyStrip raw = [] ∧
            st.fs.writeStr im.filepath im.mode
              (joinStr (str "\n") im.lines ++ ['\n']) = .error e)) :
    run M st raw (some cwd) =
      .ok (⟨[], str "cat: write error: " ++ e ++ ['\n'], some cwd, 1⟩,
        ⟨none, none, st.fs⟩) := by
  rcases h with ⟨hd, hhd, him, hdel, hwr⟩ | ⟨im, hhd, him, hdel, hwr⟩
  · rw [run_heredoc M st raw cwd hd hhd]
    unfold heredocStep
    rw [if_pos hdel, hwr, him]
    rfl
  · rw [run_input M st raw cwd im hhd him]
    unfold inputStep
    rw [if_pos hdel, hwr]
    rfl

/-- Witness for C5: a heredoc session whose target is the directory
`/tmp/d`; on the terminator the flush fails, the session is cleared, the
filesystem is untouched and `cat: write error: ...` is returned with
exit 1. -/
theorem session_flush_failure_witness :
    run cM ⟨some ⟨str "a", str "/tmp/d", str "EOF", [str "x"]⟩, none, dFS⟩ (str "EOF")
        (some (str "/tmp")) =
      .ok (⟨[], str "cat: write error: [Errno 21] Is a directory: '/tmp/d'\n",
        some (str "/tmp"), 1⟩, ⟨none, none, dFS⟩) :=
  session_flush_failure cM ⟨some ⟨str "a", str "/tmp/d", str "EOF", [str "x"]⟩, none, dFS⟩
    (str "EOF") (str "/tmp") (str "[Errno 21] Is a directory: '/tmp/d'")
    (Or.inl ⟨⟨str "a", str "/tmp/d", str "EOF", [str "x"]⟩, rfl, rfl, by decide, rfl⟩)

/-! ### Claim C3: a complete heredoc round trip -/

/-- C3: from no active session, `cat >> log.txt << EOF`, then `"x"`, `"y"`,
then `"EOF"` appends exactly `"x\ny\n"` to `log.txt`'s prior content `c0`;
afterwards no session is active and the next line (`pwd`) is tokenized and
dispatched as a normal command rather than captured. -/
theorem heredoc_append_scenario (M : Metrics) (c0 : Str) :
    ∃ st1 st2 st3 st4,
      run M (freshSt ⟨[(str "/", .dir), (str "/tmp", .dir),
          (str "/tmp/log.txt", .file c0)]⟩)
          (str "cat >> log.txt << EOF") (some (str "/tmp")) =
        .ok (⟨str "> ", [], some (str "/tmp"), 0⟩, st1) ∧
      st1.heredoc = some ⟨str "a", str "/tmp/log.txt", str "EOF", []⟩ ∧
      run M st1 (str "x") (some (str "/tmp")) =
        .ok (⟨str "> ", [], some (str "/tmp"), 0⟩, st2) ∧
      run M st2 (str "y") (some (str "/tmp")) =
        .ok (⟨str "> ", [], some (str "/tmp"), 0⟩, st3) ∧
      run M st3 (str "EOF") (some (str "/tmp")) =
        .ok (⟨[], [], some (str "/tmp"), 0⟩, st4) ∧
      st4.heredoc = none ∧ st4.inputMode = none ∧
      st4.fs.lookup (str "/tmp/log.txt") = some (.file (c0 ++ str "x\ny\n")) ∧
      run M st4 (str "pwd") (some (str "/tmp")) =
        .ok (⟨str "/tmp\n", [], some (str "/tmp"), 0⟩, st4) :=
  ⟨_, _, _, _, rfl, rfl, rfl, rfl, rfl, rfl, rfl, rfl, rfl⟩

/-! ### Dispatch lemmas for individual verbs -/

theorem dispatchLine_cd (M : Metrics) (fs : FS) (cwd raw : Str) (args : List Str)
    (hraw : raw ≠ []) (hs : shlexSplit raw = .ok (str "cd" :: args)) :
    dispatchLine M fs raw cwd =
      (match _cd M fs args cwd with
       | .ok r => .ok (r, fs, none, none)
       | .error e => .ok (catchAll cwd e, fs, none, none)) := by
  unfold dispatchLine
  rw [if_neg hraw, hs]
  dsimp only
  iterate 2 rw [if_neg (by decide)]
  rw [if_pos rfl]

theorem dispatchLine_rm (M : Metrics) (fs : FS) (cwd raw : Str) (args : List Str)
    (hraw : raw ≠ []) (hs : shlexSplit raw = .ok (str "rm" :: args)) :
    dispatchLine M fs raw cwd =
      (match _rm fs args cwd with
       | (r, fs') => .ok (r, fs', none, none)) := by
  unfold dispatchLine
  rw [if_neg hraw, hs]
  dsimp only
  iterate 4 rw [if_neg (by decide)]
  rw [if_pos rfl]

theorem dispatchLine_cat (M : Metrics) (fs : FS) (cwd raw : Str) (args : List Str)
    (hraw : raw ≠ []) (hs : shlexSplit raw = .ok (str "cat" :: args)) :
    dispatchLine M fs raw cwd =
      (match _cat fs args cwd with
       | (r, fs') =>
         if startsWithL (str "HEREDOC_MODE:") r.out then
           match pySplitMax ':' 3 r.out with
           | [_, m, f, d] => .ok (okOut (str "> ") cwd, fs', some ⟨m, f, d, []⟩, none)
           | _ => .ok (catchAll cwd (str "list index out of range"), fs', none, none)
         else if startsWithL (str "INPUT_MODE:") r.out then
           match pySplitMax ':' 2 r.out with
           | [_, m, f] => .ok (okOut (str "> ") cwd, fs', none, some ⟨m, f, []⟩)
           | _ => .ok (catchAll cwd (str "list index out of range"), fs', none, none)
         else .ok (r, fs', none, none)) := by
  unfold dispatchLine
  rw [if_neg hraw, hs]
  dsimp only
  iterate 6 rw [if_neg (by decide)]
  rw [if_pos rfl]

theorem dispatchLine_echo (M : Metrics) (fs : FS) (cwd raw : Str) (args : List Str)
    (hraw : raw ≠ []) (hs : shlexSplit raw = .ok (str "echo" :: args)) :
    dispatchLine M fs raw cwd =
      (match _echo fs args cwd with
       | (r, fs') => .ok (r, fs', none, none)) := by
  unfold dispatchLine
  rw [if_neg hraw, hs]
  dsimp only
  iterate 10 rw [if_neg (by decide)]
  rw [if_pos rfl]

theorem dispatchLine_cpu (M : Metrics) (fs : FS) (cwd raw : Str) (args : List Str)
    (hraw : raw ≠ []) (hs : shlexSplit raw = .ok (str "cpu" :: args)) :
    dispatchLine M fs raw cwd = .ok (_cpu M, fs, none, none) := by
  unfold dispatchLine
  rw [if_neg hraw, hs]
  dsimp only
  iterate 11 rw [if_neg (by decide)]
  rw [if_pos rfl]

theorem dispatchLine_mem (M : Metrics) (fs : FS) (cwd raw : Str) (args : List Str)
    (hraw : raw ≠ []) (hs : shlexSplit raw = .ok (str "mem" :: args)) :
    dispatchLine M fs raw cwd = .ok (_mem M, fs, none, none) := by
  unfold dispatchLine
  rw [if_neg hraw, hs]
  dsimp only
  iterate 12 rw [if_neg (by decide)]
  rw [if_pos rfl]

theorem dispatchLine_ps (M : Metrics) (fs : FS) (cwd raw : Str) (args : List Str)
    (hraw : raw ≠ []) (hs : shlexSplit raw = .ok (str "ps" :: args)) :
    dispatchLine M fs raw cwd = .ok (_ps M, fs, none, none) := by
  unfold dispatchLine
  rw [if_neg hraw, hs]
  dsimp only
  iterate 13 rw [if_neg (by decide)]
  rw [if_pos rfl]

theorem dispatchLine_grep (M : Metrics) (fs : FS) (cwd raw : Str) (args : List Str)
    (hraw : raw ≠ []) (hs : shlexSplit raw = .ok (str "grep" :: args)) :
    dispatchLine M fs raw cwd = .ok (_grep fs args cwd, fs, none, none) := by
  unfold dispatchLine
  rw [if_neg hraw, hs]
  dsimp only
  iterate 17 rw [if_neg (by decide)]
  rw [if_pos rfl]

theorem dispatchLine_df (M : Metrics) (fs : FS) (cwd raw : Str) (args : List Str)
    (hraw : raw ≠ []) (hs : shlexSplit raw = .ok (str "df" :: args)) :
    dispatchLine M fs raw cwd = .ok (_df M cwd, fs, none, none) := by
  unfold dispatchLine
  rw [if_neg hraw, hs]
  dsimp only
  iterate 21 rw [if_neg (by decide)]
  rw [if_pos rfl]

theorem dispatchLine_uptime (M : Metrics) (fs : FS) (cwd raw : Str) (args : List Str)
    (hraw : raw ≠ []) (hs : shlexSplit raw = .ok (str "uptime" :: args)) :
    dispatchLine M fs raw cwd = .ok (_uptime M, fs, none, none) := by
  unfold dispatchLine
  rw [if_neg hraw, hs]
  dsimp only
  iterate 25 rw [if_neg (by decide)]
  rw [if_pos rfl]

/-- A nonempty token list can only come from a nonempty stripped line. -/
theorem shlexSplit_nil : shlexSplit [] = .ok [] := rfl

/-! ### Claim C1: working-directory slot of the global-metrics verbs -/

/-- C1 (amended): with no session active, the verbs `cpu`, `mem`, `ps` and
`uptime` return the "unchanged" sentinel (`None`) in the working-directory
slot for every working directory passed in; `df`, however, returns the
caller-supplied working directory itself — the value is unchanged, but it is
the concrete path rather than the sentinel. -/
theorem global_metrics_wd (M : Metrics) (st : St) (raw cwd : Str) (v : Str)
    (rest : List Str) (r : RRes) (st' : St)
    (hhd : st.heredoc = none) (him : st.inputMode = none)
    (htok : shlexSplit (pyStrip raw) = .ok (v :: rest))
    (hrun : run M st raw (some cwd) = .ok (r, st')) :
    ((v = str "cpu" ∨ v = str "mem" ∨ v = str "ps" ∨ v = str "uptime") →
      r.wd = none) ∧
    (v = str "df" → r.wd = some cwd) := by
  have hraw : pyStrip raw ≠ [] := by
    intro h0
    rw [h0, shlexSplit_nil] at htok
    have : ([] : List Str) = v :: rest := by injection htok
    exact absurd this (by simp)
  rw [run_no_session M st raw cwd hhd him] at hrun
  constructor
  · rintro (rfl | rfl | rfl | rfl)
    · rw [dispatchLine_cpu M st.fs cwd _ rest hraw htok] at hrun
      simp only [Except.ok.injEq, Prod.mk.injEq] at hrun
      rw [← hrun.1]
      rfl
    · rw [dispatchLine_mem M st.fs cwd _ rest hraw htok] at hrun
      simp only [Except.ok.injEq, Prod.mk.injEq] at hrun
      rw [← hrun.1]
      rfl
    · rw [dispatchLine_ps M st.fs cwd _ rest hraw htok] at hrun
      simp only [Except.ok.injEq, Prod.mk.injEq] at hrun
      rw [← hrun.1]
      rfl
    · rw [dispatchLine_uptime M st.fs cwd _ rest hraw htok] at hrun
      simp only [Except.ok.injEq, Prod.mk.injEq] at hrun
      rw [← hrun.1]
      rfl
  · rintro rfl
    rw [dispatchLine_df M st.fs cwd _ rest hraw htok] at hrun
    simp only [Except.ok.injEq, Prod.mk.injEq] at hrun
    rw [← hrun.1]
    rfl

/-- C1 counterexample: `df` invoked with working directory `"/tmp"` on a
fresh instance returns the concrete path `"/tmp"` in the working-directory
slot of its result — not the `None` sentinel the claim requires of it. -/
theorem df_wd_counterexample :
    ∃ r st', run cM (freshSt cFS) (str "df") (some (str "/tmp")) = .ok (r, st') ∧
      r.wd = some (str "/tmp") ∧ r.wd ≠ none :=
  ⟨_, _, rfl, rfl, by decide⟩

/-- Witness for C1 at concrete inputs (`cpu` and `df`). -/
theorem global_metrics_wd_witness :
    (∃ r st', run cM (freshSt cFS) (str "cpu") (some (str "/tmp")) = .ok (r, st') ∧
      r.wd = none) ∧
    (∃ r st', run cM (freshSt cFS) (str "df") (some (str "/tmp")) = .ok (r, st') ∧
      r.wd = some (str "/tmp")) :=
  ⟨⟨_, _, rfl,
    (global_metrics_wd cM (freshSt cFS) (str "cpu") (str "/tmp") (str "cpu") [] _ _
      rfl rfl rfl rfl).1 (Or.inl rfl)⟩,
   ⟨_, _, rfl,
    (global_metrics_wd cM (freshSt cFS) (str "df") (str "/tmp") (str "df") [] _ _
      rfl rfl rfl rfl).2 rfl⟩⟩

/-! ### Claim C6: echo redirection then cat round trip -/

theorem FS.lookup_set_self (fs : FS) (p : Str) (e : Entry) :
    (fs.set p e).lookup p = some e := by
  unfold FS.set FS.lookup
  rw [List.lookup_cons]
  simp

/-- C6: with no session active and `f.txt` writable (its resolved path is
not a directory and its parent directory exists),
`echo "a b" > f.txt` followed by `cat f.txt` yields stdout exactly
`"a b\n"` from the `cat` invocation, with exit code 0 on both invocations. -/
theorem echo_cat_roundtrip (M : Metrics) (st : St) (cwd : Str)
    (hhd : st.heredoc = none) (him : st.inputMode = none)
    (hnd : st.fs.isDir (_path_resolve (str "f.txt") cwd) = false)
    (hpar : st.fs.isDir (dirnameL (_path_resolve (str "f.txt") cwd)) = true) :
    ∃ fs',
      run M st (str "echo \"a b\" > f.txt") (some cwd) =
        .ok (⟨[], [], some cwd, 0⟩, ⟨none, none, fs'⟩) ∧
      run M ⟨none, none, fs'⟩ (str "cat f.txt") (some cwd) =
        .ok (⟨str "a b\n", [], some cwd, 0⟩, ⟨none, none, fs'⟩) := by
  have hw : st.fs.writeStr (_path_resolve (str "f.txt") cwd) (str "w")
      (str "a b" ++ ['\n']) =
      .ok (st.fs.set (_path_resolve (str "f.txt") cwd) (.file (str "a b\n"))) := by
    unfold FS.writeStr
    rw [if_neg (by rw [hnd]; exact Bool.false_ne_true),
      if_neg (by rw [hpar]; exact Bool.false_ne_true)]
    rfl
  refine ⟨st.fs.set (_path_resolve (str "f.txt") cwd) (.file (str "a b\n")), ?_, ?_⟩
  · rw [run_no_session M st _ cwd hhd him,
      dispatchLine_echo M st.fs cwd (pyStrip (str "echo \"a b\" > f.txt"))
        [str "a b", str ">", str "f.txt"] (by decide) rfl]
    rw [show _echo st.fs [str "a b", str ">", str "f.txt"] cwd =
      (match st.fs.writeStr (_path_resolve (str "f.txt") cwd) (str "w")
          (str "a b" ++ ['\n']) with
       | .ok fs2 => (okOut [] cwd, fs2)
       | .error e =>
         (errOut (str "echo: redirection error: " ++ e ++ ['\n']) cwd 1, st.fs))
      from rfl]
    rw [hw]
    rfl
  · have hlk : (st.fs.set (_path_resolve (str "f.txt") cwd)
        (.file (str "a b\n"))).lookup (_path_resolve (str "f.txt") cwd) =
        some (.file (str "a b\n")) := FS.lookup_set_self ..
    have hpe : (st.fs.set (_path_resolve (str "f.txt") cwd)
        (.file (str "a b\n"))).pathExists (_path_resolve (str "f.txt") cwd) = true := by
      unfold FS.pathExists
      rw [hlk]
      rfl
    have hdir2 : (st.fs.set (_path_resolve (str "f.txt") cwd)
        (.file (str "a b\n"))).isDir (_path_resolve (str "f.txt") cwd) = false := by
      unfold FS.isDir
      rw [hlk]
      rfl
    have hread : catReadAll (st.fs.set (_path_resolve (str "f.txt") cwd)
        (.file (str "a b\n"))) [str "f.txt"] cwd = .ok [str "a b\n"] := by
      rw [show catReadAll (st.fs.set (_path_resolve (str "f.txt") cwd)
          (.file (str "a b\n"))) [str "f.txt"] cwd =
        (if !((st.fs.set (_path_resolve (str "f.txt") cwd)
              (.file (str "a b\n"))).pathExists (_path_resolve (str "f.txt") cwd)) then
           .error (errOut (str "cat: " ++ str "f.txt" ++
             str ": No such file or directory\n") cwd 1)
         else if (st.fs.set (_path_resolve (str "f.txt") cwd)
             (.file (str "a b\n"))).isDir (_path_resolve (str "f.txt") cwd) then
           .error (errOut (str "cat: " ++ str "f.txt" ++ str ": Is a directory\n") cwd 1)
         else (catReadAll (st.fs.set (_path_resolve (str "f.txt") cwd)
             (.file (str "a b\n"))) [] cwd).map
           (fun l => (st.fs.set (_path_resolve (str "f.txt") cwd)
             (.file (str "a b\n"))).readFile (_path_resolve (str "f.txt") cwd) :: l))
        from rfl]
      rw [hpe, hdir2]
      simp only [Bool.not_true, Bool.false_eq_true, if_false, if_neg]
      unfold FS.readFile
      rw [hlk]
      rfl
    rw [run_no_session M ⟨none, none, _⟩ _ cwd rfl rfl,
      dispatchLine_cat M _ cwd (pyStrip (str "cat f.txt")) [str "f.txt"]
        (by decide) rfl]
    rw [show _cat (st.fs.set (_path_resolve (str "f.txt") cwd)
        (.file (str "a b\n"))) [str "f.txt"] cwd =
      (match catReadAll (st.fs.set (_path_resolve (str "f.txt") cwd)
          (.file (str "a b\n"))) [str "f.txt"] cwd with
       | .error r => (r, st.fs.set (_path_resolve (str "f.txt") cwd)
           (.file (str "a b\n")))
       | .ok parts => (okOut (joinStr (str "\n") parts) cwd,
           st.fs.set (_path_resolve (str "f.txt") cwd) (.file (str "a b\n"))))
      from rfl]
    rw [hread]
    rfl

/-- A nonempty token list only arises from a nonempty stripped line. -/
theorem tokens_nonempty (raw : Str) (x : Str) (xs : List Str)
    (h : shlexSplit (pyStrip raw) = .ok (x :: xs)) : pyStrip raw ≠ [] := by
  intro h0
  rw [h0, shlexSplit_nil] at h
  have : ([] : List Str) = x :: xs := by injection h
  exact absurd this (by simp)

/-- Witness for C6 at a concrete input. -/
theorem echo_cat_roundtrip_witness :
    ∃ fs',
      run cM (freshSt cFS) (str "echo \"a b\" > f.txt") (some (str "/tmp")) =
        .ok (⟨[], [], some (str "/tmp"), 0⟩, ⟨none, none, fs'⟩) ∧
      run cM ⟨none, none, fs'⟩ (str "cat f.txt") (some (str "/tmp")) =
        .ok (⟨str "a b\n", [], some (str "/tmp"), 0⟩, ⟨none, none, fs'⟩) :=
  echo_cat_roundtrip cM (freshSt cFS) (str "/tmp") rfl rfl (by decide) (by decide)

/-! ### Claim C8: rm on a non-empty directory -/

theorem lookup_filterKeys_none (q : Str) (P : Str → Bool) (h : P q = false)
    (l : List (Str × Entry)) :
    List.lookup q (l.filter (fun kv => P kv.1)) = none := by
  induction l with
  | nil => rfl
  | cons kv rest ih =>
    rcases kv with ⟨k, v⟩
    rw [List.filter_cons]
    by_cases hk : q = k
    · subst hk
      simp only [h, Bool.false_eq_true, if_false]
      exact ih
    · by_cases hp : P k = true
      · rw [if_pos hp, List.lookup_cons]
        simp only [beq_eq_false_iff_ne.mpr hk]
        exact ih
      · rw [if_neg (by simp [hp])]
        exact ih

theorem lookup_filterKeys_same (q : Str) (P : Str → Bool) (h : P q = true)
    (l : List (Str × Entry)) :
    List.lookup q (l.filter (fun kv => P kv.1)) = List.lookup q l := by
  induction l with
  | nil => rfl
  | cons kv rest ih =>
    rcases kv with ⟨k, v⟩
    rw [List.filter_cons]
    by_cases hk : q = k
    · subst hk
      rw [if_pos h, List.lookup_cons, List.lookup_cons]
      simp only [beq_self_eq_true]
    · rw [List.lookup_cons]
      simp only [beq_eq_false_iff_ne.mpr hk]
      by_cases hp : P k = true
      · rw [if_pos hp, List.lookup_cons]
        simp only [beq_eq_false_iff_ne.mpr hk]
        exact ih
      · rw [if_neg (by simp [hp])]
        exact ih

/-- C8: `rm` on a (non-empty) directory without a recursive flag returns
exit 1 with "Is a directory" and leaves the filesystem — the directory and
all of its contents — completely unchanged; the same invocation with `-r`
removes the directory and its entire contents, returns exit 0, and leaves
every path outside the removed directory untouched. -/
theorem rm_directory (M : Metrics) (st : St) (cwd raw1 raw2 a d : Str)
    (hhd : st.heredoc = none) (him : st.inputMode = none)
    (htok1 : shlexSplit (pyStrip raw1) = .ok [str "rm", a])
    (htok2 : shlexSplit (pyStrip raw2) = .ok [str "rm", str "-r", a])
    (ha : a ≠ str "-r" ∧ a ≠ str "-rf" ∧ a ≠ str "-fr")
    (hd : _path_resolve a cwd = d)
    (hdir : st.fs.lookup d = some .dir)
    (hne : st.fs.listdir d ≠ []) :
    (∃ st', run M st raw1 (some cwd) =
        .ok (⟨[], str "rm: cannot remove '" ++ a ++ str "': Is a directory\n",
          some cwd, 1⟩, st') ∧ st'.fs = st.fs) ∧
    (∃ st', run M st raw2 (some cwd) = .ok (⟨[], [], some cwd, 0⟩, st') ∧
      st'.fs.lookup d = none ∧
      (∀ q, isUnder d q = true → st'.fs.lookup q = none) ∧
      (∀ q, q ≠ d → isUnder d q = false → st'.fs.lookup q = st.fs.lookup q)) := by
  subst hd
  have hpe : st.fs.pathExists (_path_resolve a cwd) = true := by
    unfold FS.pathExists
    rw [hdir]
    rfl
  have hid : st.fs.isDir (_path_resolve a cwd) = true := by
    unfold FS.isDir
    rw [hdir]
    rfl
  constructor
  · -- rm without -r
    have h1 : _rm st.fs [a] cwd = rmLoop st.fs false [a] cwd := by
      unfold _rm
      rw [if_neg (by simp)]
      have hrec : ([a].any fun x => x == str "-r" || x == str "-rf" || x == str "-fr")
          = false := by
        simp [beq_eq_false_iff_ne.mpr ha.1, beq_eq_false_iff_ne.mpr ha.2.1,
          beq_eq_false_iff_ne.mpr ha.2.2]
      have hpaths : ([a].filter fun x =>
          !(x == str "-r") && !(x == str "-rf") && !(x == str "-fr")) = [a] := by
        simp [beq_eq_false_iff_ne.mpr ha.1, beq_eq_false_iff_ne.mpr ha.2.1,
          beq_eq_false_iff_ne.mpr ha.2.2]
      simp only [hrec, hpaths]
      rw [if_neg (by simp)]
    have h2 : rmLoop st.fs false [a] cwd =
        (errOut (str "rm: cannot remove '" ++ a ++ str "': Is a directory\n") cwd 1,
          st.fs) := by
      unfold rmLoop
      rw [if_neg (by simp [hpe]), if_pos ⟨hid, by simp⟩]
    refine ⟨⟨none, none, st.fs⟩, ?_, rfl⟩
    rw [run_no_session M st raw1 cwd hhd him,
      dispatchLine_rm M st.fs cwd (pyStrip raw1) [a] (tokens_nonempty raw1 _ _ htok1)
        htok1, h1, h2]
    rfl
  · -- rm -r
    have h1 : _rm st.fs [str "-r", a] cwd = rmLoop st.fs true [a] cwd := by
      unfold _rm
      rw [if_neg (by simp)]
      have hrec : ([str "-r", a].any fun x =>
          x == str "-r" || x == str "-rf" || x == str "-fr") = true := by
        simp
      have hpaths : ([str "-r", a].filter fun x =>
          !(x == str "-r") && !(x == str "-rf") && !(x == str "-fr")) = [a] := by
        simp [beq_eq_false_iff_ne.mpr ha.1, beq_eq_false_iff_ne.mpr ha.2.1,
          beq_eq_false_iff_ne.mpr ha.2.2]
      simp only [hrec, hpaths]
      rw [if_neg (by simp)]
    have h2 : rmLoop st.fs true [a] cwd =
        (okOut [] cwd, st.fs.rmtree (_path_resolve a cwd)) := by
      unfold rmLoop
      rw [if_neg (by simp [hpe]), if_neg (by rintro ⟨-, hh⟩; exact hh rfl),
        if_pos hid]
      rfl
    refine ⟨⟨none, none, st.fs.rmtree (_path_resolve a cwd)⟩, ?_, ?_, ?_, ?_⟩
    · rw [run_no_session M st raw2 cwd hhd him,
        dispatchLine_rm M st.fs cwd (pyStrip raw2) [str "-r", a]
          (tokens_nonempty raw2 _ _ htok2) htok2, h1, h2]
      rfl
    · exact lookup_filterKeys_none _
        (fun x => !(x == _path_resolve a cwd) && !(isUnder (_path_resolve a cwd) x))
        (by simp) _
    · intro q hq
      exact lookup_filterKeys_none _
        (fun x => !(x == _path_resolve a cwd) && !(isUnder (_path_resolve a cwd) x))
        (by simp [hq]) _
    · intro q hq1 hq2
      exact lookup_filterKeys_same _
        (fun x => !(x == _path_resolve a cwd) && !(isUnder (_path_resolve a cwd) x))
        (by simp [beq_eq_false_iff_ne.mpr hq1, hq2]) _

/-- Witness for C8: `/tmp/d` contains `/tmp/d/f`; `rm d` fails with exit 1
leaving everything in place, `rm -r d` removes the subtree with exit 0. -/
theorem rm_directory_witness :
    (∃ st', run cM (freshSt dFS) (str "rm d") (some (str "/tmp")) =
        .ok (⟨[], str "rm: cannot remove 'd': Is a directory\n",
          some (str "/tmp"), 1⟩, st') ∧ st'.fs = dFS) ∧
    (∃ st', run cM (freshSt dFS) (str "rm -r d") (some (str "/tmp")) =
        .ok (⟨[], [], some (str "/tmp"), 0⟩, st') ∧
      st'.fs.lookup (str "/tmp/d") = none ∧
      (∀ q, isUnder (str "/tmp/d") q = true → st'.fs.lookup q = none) ∧
      (∀ q, q ≠ str "/tmp/d" → isUnder (str "/tmp/d") q = false →
        st'.fs.lookup q = dFS.lookup q)) :=
  rm_directory cM (freshSt dFS) (str "/tmp") (str "rm d") (str "rm -r d") (str "d")
    (str "/tmp/d") rfl rfl rfl rfl (by decide) rfl rfl (by decide)

/-! ### Claim C7: grep is a literal substring search -/

/-- `isSubstr` is exactly the contiguous-substring (infix) relation. -/
theorem isSubstr_iff (pat s : Str) : isSubstr pat s = true ↔ pat <:+: s := by
  induction s with
  | nil =>
    rw [show isSubstr pat [] = (pat == []) from rfl, beq_iff_eq, List.infix_nil]
  | cons c rest ih =>
    rw [show isSubstr pat (c :: rest) =
      (pat.isPrefixOf (c :: rest) || isSubstr pat rest) from rfl,
      Bool.or_eq_true, List.isPrefixOf_iff_prefix, ih, List.infix_cons_iff]

/-- Appending a character that does not occur in the pattern does not change
substring matching. -/
theorem infix_append_singleton (pat s : Str) (x : Char) (hx : x ∉ pat) :
    pat <:+: s ++ [x] ↔ pat <:+: s := by
  constructor
  · rintro ⟨u, t, huv⟩
    rcases List.eq_nil_or_concat t with rfl | ⟨t', y, ht⟩
    · rw [List.append_nil] at huv
      rcases List.eq_nil_or_concat pat with rfl | ⟨p', z, hp⟩
      · exact List.nil_infix
      · rw [List.concat_eq_append] at hp
        subst hp
        rw [← List.append_assoc] at huv
        obtain ⟨-, hz⟩ := List.append_inj' huv (by simp)
        have hz1 : z = x := by injection hz
        exact absurd (hz1 ▸ List.mem_append_right p' (List.mem_singleton_self z)) hx
    · rw [List.concat_eq_append] at ht
      subst ht
      rw [show u ++ pat ++ (t' ++ [y]) = (u ++ pat ++ t') ++ [y] from by
        simp [List.append_assoc]] at huv
      obtain ⟨h1, -⟩ := List.append_inj' huv (by simp)
      exact ⟨u, t', h1⟩
  · intro h
    exact h.trans (List.prefix_append s [x]).isInfix

theorem isSubstr_append_newline (pat b : Str) (h : '\n' ∉ pat) :
    isSubstr pat (b ++ ['\n']) = isSubstr pat b := by
  by_cases hinf : pat <:+: b
  · rw [(isSubstr_iff ..).mpr hinf,
      (isSubstr_iff ..).mpr ((infix_append_singleton pat b '\n' h).mpr hinf)]
  · have n1 : isSubstr pat b = false := by
      cases h' : isSubstr pat b with
      | false => rfl
      | true => exact absurd ((isSubstr_iff ..).mp h') hinf
    have n2 : isSubstr pat (b ++ ['\n']) = false := by
      cases h' : isSubstr pat (b ++ ['\n']) with
      | false => rfl
      | true =>
        exact absurd ((infix_append_singleton pat b '\n' h).mp
          ((isSubstr_iff ..).mp h')) hinf
    rw [n1, n2]

theorem pyRstrip_append_newline (b : Str) :
    pyRstrip (b ++ ['\n']) = pyRstrip b := by
  unfold pyRstrip
  rw [List.reverse_append]
  rfl

theorem linesKE_cons_ne (c : Char) (rest : Str) (hc : c ≠ '\n') :
    linesKE (c :: rest) =
      match linesKE rest with
      | [] => [[c]]
      | g :: gs => (c :: g) :: gs := by
  cases rest <;> simp [linesKE, hc]

theorem linesKE_body (b t : Str) (hb : '\n' ∉ b) :
    linesKE (b ++ '\n' :: t) = (b ++ ['\n']) :: linesKE t := by
  induction b with
  | nil => rfl
  | cons c b' ih =>
    have hc : c ≠ '\n' := fun h => hb (h ▸ List.mem_cons_self ..)
    rw [List.cons_append, linesKE_cons_ne c _ hc,
      ih (fun h => hb (List.mem_cons_of_mem _ h))]
    rfl

theorem linesKE_concat (bodies : List Str) (h : ∀ b ∈ bodies, '\n' ∉ b) :
    linesKE (concatL (bodies.map (fun b => b ++ ['\n']))) =
      bodies.map (fun b => b ++ ['\n']) := by
  induction bodies with
  | nil => rfl
  | cons b bs ih =>
    rw [List.map_cons,
      show concatL ((b ++ ['\n']) :: (bs.map (fun b => b ++ ['\n']))) =
        (b ++ ['\n']) ++ concatL (bs.map (fun b => b ++ ['\n'])) from rfl,
      List.append_assoc,
      show (['\n'] ++ concatL (bs.map (fun b => b ++ ['\n']))) =
        '\n' :: concatL (bs.map (fun b => b ++ ['\n'])) from rfl,
      linesKE_body b _ (h b (List.mem_cons_self ..)),
      ih (fun x hx => h x (List.mem_cons_of_mem _ hx))]

theorem enumFrom_map (n : Nat) (l : List Str) (g : Str → Str) :
    List.enumFrom n (l.map g) = (List.enumFrom n l).map (fun t => (t.1, g t.2)) := by
  induction l generalizing n with
  | nil => rfl
  | cons x xs ih => simp [List.enumFrom, ih]

/-- The records the specification's wording predicts for `grep` on a file
whose lines have bodies `bodies`: one `lineNumber:content` record per line
containing the pattern as a literal substring, with the content's trailing
whitespace stripped (`isSubstr` is certified against the mathematical
substring relation by `isSubstr_iff`). -/
def grepSpecRecords (pattern : Str) (bodies : List Str) : List Str :=
  (bodies.enumFrom 1).filterMap (fun t =>
    if isSubstr pattern t.2 then some (natToStr t.1 ++ [':'] ++ pyRstrip t.2)
    else none)

/-- C7 (amended): `grep PATTERN FILE` on an existing regular file performs a
literal substring search; for every line containing the pattern it emits
`lineNumber:lineContent` *with the content's trailing whitespace stripped*;
when at least one line matches it returns exit code 0, and when no line
matches it returns empty stdout with exit code 1. -/
theorem grep_literal_substring (M : Metrics) (st : St) (cwd raw pattern fname : Str)
    (rest : List Str) (bodies : List Str)
    (hhd : st.heredoc = none) (him : st.inputMode = none)
    (htok : shlexSplit (pyStrip raw) = .ok (str "grep" :: pattern :: fname :: rest))
    (hfile : st.fs.lookup (_path_resolve fname cwd) =
      some (.file (concatL (bodies.map (fun b => b ++ ['\n'])))))
    (hnl : ∀ b ∈ bodies, '\n' ∉ b) (hpnl : '\n' ∉ pattern) :
    run M st raw (some cwd) =
      .ok ((if grepSpecRecords pattern bodies = [] then ⟨[], [], some cwd, 1⟩
            else okOut (joinStr (str "\n") (grepSpecRecords pattern bodies) ++ ['\n'])
              cwd),
        ⟨none, none, st.fs⟩) := by
  have hpe : st.fs.pathExists (_path_resolve fname cwd) = true := by
    unfold FS.pathExists
    rw [hfile]
    rfl
  have hdir : st.fs.isDir (_path_resolve fname cwd) = false := by
    unfold FS.isDir
    rw [hfile]
    rfl
  have hrd : st.fs.readFile (_path_resolve fname cwd) =
      concatL (bodies.map (fun b => b ++ ['\n'])) := by
    unfold FS.readFile
    rw [hfile]
  have key : grepMatches pattern (concatL (bodies.map (fun b => b ++ ['\n']))) =
      grepSpecRecords pattern bodies := by
    unfold grepMatches grepSpecRecords
    rw [linesKE_concat bodies hnl, enumFrom_map, List.filterMap_map]
    apply List.filterMap_congr
    intro t ht
    simp only [Function.comp]
    rw [isSubstr_append_newline pattern t.2 hpnl, pyRstrip_append_newline]
  rw [run_no_session M st raw cwd hhd him,
    dispatchLine_grep M st.fs cwd (pyStrip raw) (pattern :: fname :: rest)
      (tokens_nonempty raw _ _ htok) htok]
  rw [show _grep st.fs (pattern :: fname :: rest) cwd =
    (if !(st.fs.pathExists (_path_resolve fname cwd)) then
       errOut (str "grep: " ++ fname ++ str ": No such file or directory\n") cwd 1
     else if st.fs.isDir (_path_resolve fname cwd) then
       errOut (str "grep: " ++ fname ++ str ": Is a directory\n") cwd 1
     else if grepMatches pattern (st.fs.readFile (_path_resolve fname cwd)) ≠ [] then
       okOut (joinStr (str "\n")
         (grepMatches pattern (st.fs.readFile (_path_resolve fname cwd))) ++ ['\n']) cwd
     else ⟨[], [], some cwd, 1⟩) from rfl]
  rw [if_neg (by simp [hpe]), if_neg (by simp [hdir]), hrd, key]
  by_cases hrec : grepSpecRecords pattern bodies = []
  · rw [if_neg (by simp [hrec]), if_pos hrec]
  · rw [if_pos hrec, if_neg hrec]

/-- C7 counterexample: on a file whose sole line is `"foo "` (trailing
space), `grep foo` emits `"1:foo\n"` — the code strips the trailing
whitespace of the matched line, so the output is not
`"1:" ++ lineContent ++ "\n" = "1:foo \n"` as the claim, read literally,
requires. -/
theorem grep_rstrip_counterexample :
    hFS.lookup (str "/tmp/h.txt") = some (.file (str "foo " ++ ['\n'])) ∧
    (∃ st', run cM (freshSt hFS) (str "grep foo h.txt") (some (str "/tmp")) =
      .ok (⟨str "1:foo\n", [], some (str "/tmp"), 0⟩, st')) ∧
    str "1:foo\n" ≠ str "1:" ++ str "foo " ++ str "\n" :=
  ⟨rfl, ⟨_, rfl⟩, by decide⟩

/-- Witness for C7 at the claim's concrete inputs: the file
`"foo\nbar\nfoobar\n"`, patterns `"foo"` and `"zzz"`. -/
theorem grep_literal_substring_witness :
    run cM (freshSt gFS) (str "grep foo g.txt") (some (str "/tmp")) =
      .ok (⟨str "1:foo\n3:foobar\n", [], some (str "/tmp"), 0⟩,
        ⟨none, none, gFS⟩) ∧
    run cM (freshSt gFS) (str "grep zzz g.txt") (some (str "/tmp")) =
      .ok (⟨[], [], some (str "/tmp"), 1⟩, ⟨none, none, gFS⟩) :=
  ⟨grep_literal_substring cM (freshSt gFS) (str "/tmp") (str "grep foo g.txt")
      (str "foo") (str "g.txt") [] [str "foo", str "bar", str "foobar"]
      rfl rfl rfl rfl (by decide) (by decide),
   grep_literal_substring cM (freshSt gFS) (str "/tmp") (str "grep zzz g.txt")
      (str "zzz") (str "g.txt") [] [str "foo", str "bar", str "foobar"]
      rfl rfl rfl rfl (by decide) (by decide)⟩

/-! ### Claim C4: at most one session, and session input bypasses dispatch -/

theorem ok_left_none {r0 r : RRes} {fs0 fs1 : FS} {im0 : Option InputS}
    {hd : Option HeredocS} {im : Option InputS}
    (h : (Except.ok (r0, fs0, (none : Option HeredocS), im0) :
        Except Str (RRes × FS × Option HeredocS × Option InputS)) =
      .ok (r, fs1, hd, im)) :
    hd = none ∨ im = none := by
  simp only [Except.ok.injEq, Prod.mk.injEq] at h
  exact Or.inl h.2.2.1.symm

theorem ok_right_none {r0 r : RRes} {fs0 fs1 : FS} {hd0 : Option HeredocS}
    {hd : Option HeredocS} {im : Option InputS}
    (h : (Except.ok (r0, fs0, hd0, (none : Option InputS)) :
        Except Str (RRes × FS × Option HeredocS × Option InputS)) =
      .ok (r, fs1, hd, im)) :
    hd = none ∨ im = none := by
  simp only [Except.ok.injEq, Prod.mk.injEq] at h
  exact Or.inr h.2.2.2.symm

/-- Dispatch (with no session active) never creates both session kinds at
once: only the `cat` special modes set one of the two slots. -/
theorem dispatchLine_sessions (M : Metrics) (fs : FS) (raw cwd : Str) (r : RRes)
    (fs1 : FS) (hd : Option HeredocS) (im : Option InputS)
    (h : dispatchLine M fs raw cwd = .ok (r, fs1, hd, im)) :
    hd = none ∨ im = none := by
  unfold dispatchLine at h
  by_cases h0 : raw = []
  · rw [if_pos h0] at h
    exact ok_left_none h
  rw [if_neg h0] at h
  rcases hs : shlexSplit raw with e | tl
  · rw [hs] at h
    exact ok_left_none h
  rcases tl with _ | ⟨cmd, args⟩
  · rw [hs] at h
    exact absurd h (by simp)
  rw [hs] at h
  dsimp only at h
  by_cases c1 : cmd = str "pwd"
  · rw [if_pos c1] at h; exact ok_left_none h
  rw [if_neg c1] at h
  by_cases c2 : cmd = str "ls"
  · rw [if_pos c2] at h; exact ok_left_none h
  rw [if_neg c2] at h
  by_cases c3 : cmd = str "cd"
  · rw [if_pos c3] at h
    rcases hv : _cd M fs args cwd with e | r0 <;> rw [hv] at h <;> exact ok_left_none h
  rw [if_neg c3] at h
  by_cases c4 : cmd = str "mkdir"
  · rw [if_pos c4] at h
    rcases hv : _mkdir fs args cwd with ⟨e, fs'⟩ | ⟨r0, fs'⟩ <;> rw [hv] at h <;>
      exact ok_left_none h
  rw [if_neg c4] at h
  by_cases c5 : cmd = str "rm"
  · rw [if_pos c5] at h; exact ok_left_none h
  rw [if_neg c5] at h
  by_cases c6 : cmd = str "rmdir"
  · rw [if_pos c6] at h; exact ok_left_none h
  rw [if_neg c6] at h
  by_cases c7 : cmd = str "cat"
  · rw [if_pos c7] at h
    by_cases s1 : startsWithL (str "HEREDOC_MODE:") (_cat fs args cwd).1.out
    · rw [if_pos s1] at h
      rcases hps : pySplitMax ':' 3 (_cat fs args cwd).1.out with
        _ | ⟨x1, _ | ⟨x2, _ | ⟨x3, _ | ⟨x4, _ | ⟨x5, tl2⟩⟩⟩⟩⟩ <;> rw [hps] at h <;>
        first
        | exact ok_left_none h
        | exact ok_right_none h
    rw [if_neg s1] at h
    by_cases s2 : startsWithL (str "INPUT_MODE:") (_cat fs args cwd).1.out
    · rw [if_pos s2] at h
      rcases hps : pySplitMax ':' 2 (_cat fs args cwd).1.out with
        _ | ⟨x1, _ | ⟨x2, _ | ⟨x3, _ | ⟨x4, tl2⟩⟩⟩⟩ <;> rw [hps] at h <;>
        exact ok_left_none h
    rw [if_neg s2] at h
    exact ok_left_none h
  rw [if_neg c7] at h
  by_cases c8 : cmd = str "touch"
  · rw [if_pos c8] at h
    rcases hv : _touch fs args cwd with ⟨e, fs'⟩ | ⟨r0, fs'⟩ <;> rw [hv] at h <;>
      exact ok_left_none h
  rw [if_neg c8] at h
  by_cases c9 : cmd = str "mv"
  · rw [if_pos c9] at h; exact ok_left_none h
  rw [if_neg c9] at h
  by_cases c10 : cmd = str "cp"
  · rw [if_pos c10] at h; exact ok_left_none h
  rw [if_neg c10] at h
  by_cases c11 : cmd = str "echo"
  · rw [if_pos c11] at h; exact ok_left_none h
  rw [if_neg c11] at h
  by_cases c12 : cmd = str "cpu"
  · rw [if_pos c12] at h; exact ok_left_none h
  rw [if_neg c12] at h
  by_cases c13 : cmd = str "mem"
  · rw [if_pos c13] at h; exact ok_left_none h
  rw [if_neg c13] at h
  by_cases c14 : cmd = str "ps"
  · rw [if_pos c14] at h; exact ok_left_none h
  rw [if_neg c14] at h
  by_cases c15 : cmd = str "head"
  · rw [if_pos c15] at h; exact ok_left_none h
  rw [if_neg c15] at h
  by_cases c16 : cmd = str "tail"
  · rw [if_pos c16] at h; exact ok_left_none h
  rw [if_neg c16] at h
  by_cases c17 : cmd = str "wc"
  · rw [if_pos c17] at h; exact ok_left_none h
  rw [if_neg c17] at h
  by_cases c18 : cmd = str "grep"
  · rw [if_pos c18] at h; exact ok_left_none h
  rw [if_neg c18] at h
  by_cases c19 : cmd = str "find"
  · rw [if_pos c19] at h; exact ok_left_none h
  rw [if_neg c19] at h
  by_cases c20 : cmd = str "tree"
  · rw [if_pos c20] at h
    rcases hv : _tree fs args cwd with e | r0 <;> rw [hv] at h <;>
      exact ok_left_none h
  rw [if_neg c20] at h
  by_cases c21 : cmd = str "du"
  · rw [if_pos c21] at h
    rcases hv : _du M fs args cwd with e | r0 <;> rw [hv] at h <;>
      exact ok_left_none h
  rw [if_neg c21] at h
  by_cases c22 : cmd = str "df"
  · rw [if_pos c22] at h; exact ok_left_none h
  rw [if_neg c22] at h
  by_cases c23 : cmd = str "stat"
  · rw [if_pos c23] at h; exact ok_left_none h
  rw [if_neg c23] at h
  by_cases c24 : cmd = str "chmod"
  · rw [if_pos c24] at h; exact ok_left_none h
  rw [if_neg c24] at h
  by_cases c25 : cmd = str "date"
  · rw [if_pos c25] at h; exact ok_left_none h
  rw [if_neg c25] at h
  by_cases c26 : cmd = str "uptime"
  · rw [if_pos c26] at h; exact ok_left_none h
  rw [if_neg c26] at h
  by_cases c27 : cmd = str "whoami"
  · rw [if_pos c27] at h; exact ok_left_none h
  rw [if_neg c27] at h
  by_cases c28 : cmd = str "hostname"
  · rw [if_pos c28] at h; exact ok_left_none h
  rw [if_neg c28] at h
  by_cases c29 : cmd = str "md5sum"
  · rw [if_pos c29] at h; exact ok_left_none h
  rw [if_neg c29] at h
  by_cases c30 : cmd = str "sha256sum"
  · rw [if_pos c30] at h; exact ok_left_none h
  rw [if_neg c30] at h
  by_cases c31 : cmd = str "clear"
  · rw [if_pos c31] at h; exact ok_left_none h
  rw [if_neg c31] at h
  by_cases c32 : cmd = str "which"
  · rw [if_pos c32] at h; exact ok_left_none h
  rw [if_neg c32] at h
  by_cases c33 : cmd = str "help" ∨ cmd = str "--help" ∨ cmd = str "-h"
  · rw [if_pos c33] at h; exact ok_left_none h
  rw [if_neg c33] at h
  exact ok_left_none h

/-- A single `run` step preserves "at most one active session". -/
theorem run_preserves_single_session (M : Metrics) (st st' : St) (r : RRes)
    (raw : Str) (c : Option Str)
    (hinv : st.heredoc = none ∨ st.inputMode = none)
    (h : run M st raw c = .ok (r, st')) :
    st'.heredoc = none ∨ st'.inputMode = none := by
  unfold run at h
  rcases hcd : cwdDefault st.fs c with e | ⟨cwd, fs0⟩
  · rw [hcd] at h
    exact absurd h (by simp)
  · rw [hcd] at h
    dsimp only at h
    rcases hhd : st.heredoc with _ | hsess
    · rw [hhd] at h
      dsimp only at h
      rcases him : st.inputMode with _ | msess
      · rw [him] at h
        dsimp only at h
        rcases hdl : dispatchLine M fs0 (pyStrip raw) cwd with e | ⟨r0, fs1, hd, im⟩
        · rw [hdl] at h
          exact absurd h (by simp)
        · rw [hdl] at h
          simp only [Except.ok.injEq, Prod.mk.injEq] at h
          obtain ⟨-, h2⟩ := h
          rw [← h2]
          exact dispatchLine_sessions M fs0 (pyStrip raw) cwd r0 fs1 hd im hdl
      · rw [him] at h
        dsimp only at h
        rcases his : inputStep fs0 msess (pyStrip raw) cwd with ⟨r0, im1, fs1⟩
        rw [his] at h
        simp only [Except.ok.injEq, Prod.mk.injEq] at h
        obtain ⟨-, h2⟩ := h
        rw [← h2]
        exact Or.inl rfl
    · rw [hhd] at h
      dsimp only at h
      rcases hhs : heredocStep fs0 hsess (pyStrip raw) cwd with ⟨r0, hd1, fs1⟩
      rw [hhs] at h
      simp only [Except.ok.injEq, Prod.mk.injEq] at h
      obtain ⟨-, h2⟩ := h
      rw [← h2]
      rcases hinv with h3 | h3
      · rw [hhd] at h3
        exact absurd h3 (by simp)
      · exact Or.inr h3

/-- C4: in every state reachable by any sequence of `run` invocations from a
fresh instance, at most one capture session is active (the heredoc slot and
the raw-input slot are never both non-empty); and whenever a session is
active, `run` coincides with the session-only handler `runSessionOnly`,
which performs no tokenization and consults no dispatch table. -/
theorem single_session_invariant (M : Metrics) :
    (∀ (fs : FS) (cmds : List (Str × Option Str)),
      (runSeq M (freshSt fs) cmds).heredoc = none ∨
      (runSeq M (freshSt fs) cmds).inputMode = none) ∧
    (∀ (st : St) (raw : Str) (c : Option Str),
      st.heredoc.isSome ∨ st.inputMode.isSome →
      run M st raw c = runSessionOnly M st raw c) := by
  constructor
  · intro fs cmds
    have main : ∀ (cmds : List (Str × Option Str)) (st : St),
        st.heredoc = none ∨ st.inputMode = none →
        (runSeq M st cmds).heredoc = none ∨ (runSeq M st cmds).inputMode = none := by
      intro cmds
      induction cmds with
      | nil => intro st h; exact h
      | cons p rest ih =>
        intro st h
        rcases p with ⟨raw, c⟩
        rw [show runSeq M st ((raw, c) :: rest) =
          (match run M st raw c with
           | .ok (_, st') => runSeq M st' rest
           | .error _ => st) from rfl]
        rcases hr : run M st raw c with e | ⟨r, st'⟩
        · exact h
        · exact ih st' (run_preserves_single_session M st st' r raw c h hr)
    exact main cmds (freshSt fs) (Or.inl rfl)
  · intro st raw c hact
    rcases st with ⟨shd, sim, sfs⟩
    rcases shd with _ | hs
    · rcases sim with _ | ms
      · rcases hact with hh | hh <;> simp at hh
      · rfl
    · rfl

/-- Witness for C4: the invariant after one `cat > f.txt` command, and the
routing equality on a concrete state with an active heredoc session. -/
theorem single_session_invariant_witness :
    ((runSeq cM (freshSt cFS) [(str "cat > f.txt", some (str "/tmp"))]).heredoc = none ∨
      (runSeq cM (freshSt cFS) [(str "cat > f.txt", some (str "/tmp"))]).inputMode = none) ∧
    run cM ⟨some ⟨str "a", str "/tmp/log.txt", str "EOF", []⟩, none, cFS⟩ (str "ls")
        (some (str "/tmp")) =
      runSessionOnly cM ⟨some ⟨str "a", str "/tmp/log.txt", str "EOF", []⟩, none, cFS⟩
        (str "ls") (some (str "/tmp")) :=
  ⟨(single_session_invariant cM).1 cFS [(str "cat > f.txt", some (str "/tmp"))],
   (single_session_invariant cM).2
     ⟨some ⟨str "a", str "/tmp/log.txt", str "EOF", []⟩, none, cFS⟩
     (str "ls") (some (str "/tmp")) (Or.inl rfl)⟩

/-! ### Claim C10: the working-directory slot across all verbs -/

theorem rmLoop_wd (paths : List Str) : ∀ (fs : FS) (rec : Bool) (cwd : Str),
    (rmLoop fs rec paths cwd).1.wd = some cwd := by
  induction paths with
  | nil => intro fs rec cwd; rfl
  | cons a rest ih =>
    intro fs rec cwd
    unfold rmLoop
    try dsimp only
    repeat' split
    all_goals first | rfl | apply ih

theorem rmdirLoop_wd (paths : List Str) : ∀ (fs : FS) (cwd : Str),
    (rmdirLoop fs paths cwd).1.wd = some cwd := by
  induction paths with
  | nil => intro fs cwd; rfl
  | cons a rest ih =>
    intro fs cwd
    unfold rmdirLoop
    try dsimp only
    repeat' split
    all_goals first | rfl | apply ih

theorem mvLoop_wd (srcs : List Str) : ∀ (fs : FS) (cwd dest : Str),
    (mvLoop fs srcs cwd dest).1.wd = some cwd := by
  induction srcs with
  | nil => intro fs cwd dest; rfl
  | cons s rest ih =>
    intro fs cwd dest
    unfold mvLoop
    try dsimp only
    repeat' split
    all_goals first | rfl | apply ih

theorem cpLoop_wd (srcs : List Str) : ∀ (fs : FS) (cwd dest : Str) (rec : Bool),
    (cpLoop fs srcs cwd dest rec).1.wd = some cwd := by
  induction srcs with
  | nil => intro fs cwd dest rec; rfl
  | cons s rest ih =>
    intro fs cwd dest rec
    unfold cpLoop
    try dsimp only
    repeat' split
    all_goals first | rfl | apply ih

theorem mkdirLoop_wd (args : List Str) : ∀ (fs : FS) (cwd : Str) (r : RRes) (fs' : FS),
    mkdirLoop fs args cwd = .ok (r, fs') → r.wd = some cwd := by
  induction args with
  | nil =>
    intro fs cwd r fs' h
    simp only [mkdirLoop, Except.ok.injEq, Prod.mk.injEq] at h
    rw [← h.1]
    rfl
  | cons a rest ih =>
    intro fs cwd r fs' h
    unfold mkdirLoop at h
    dsimp only at h
    rcases hm : fs.makedirs (_path_resolve a cwd) false with e | fs2
    · rw [hm] at h
      dsimp only at h
      by_cases hp : fs.pathExists (_path_resolve a cwd) = true
      · rw [if_pos hp] at h
        simp only [Except.ok.injEq, Prod.mk.injEq] at h
        rw [← h.1]
        rfl
      · rw [if_neg hp] at h
        exact absurd h (by simp)
    · rw [hm] at h
      dsimp only at h
      exact ih fs2 cwd r fs' h

theorem touchLoop_wd (args : List Str) : ∀ (fs : FS) (cwd : Str) (r : RRes) (fs' : FS),
    touchLoop fs args cwd = .ok (r, fs') → r.wd = some cwd := by
  induction args with
  | nil =>
    intro fs cwd r fs' h
    simp only [touchLoop, Except.ok.injEq, Prod.mk.injEq] at h
    rw [← h.1]
    rfl
  | cons a rest ih =>
    intro fs cwd r fs' h
    unfold touchLoop at h
    dsimp only at h
    rcases hw1 : (if dirnameL (_path_resolve a cwd) ≠ [] ∧
        ¬(freshSt fs).fs.pathExists (dirnameL (_path_resolve a cwd)) = true then
        fs.makedirs (dirnameL (_path_resolve a cwd)) true else .ok fs) with e | fs1
    case error =>
      rw [show (if dirnameL (_path_resolve a cwd) ≠ [] ∧
          ¬fs.pathExists (dirnameL (_path_resolve a cwd)) = true then
          fs.makedirs (dirnameL (_path_resolve a cwd)) true else .ok fs) = .error e
        from hw1] at h
      exact absurd h (by simp)
    case ok =>
      rw [show (if dirnameL (_path_resolve a cwd) ≠ [] ∧
          ¬fs.pathExists (dirnameL (_path_resolve a cwd)) = true then
          fs.makedirs (dirnameL (_path_resolve a cwd)) true else .ok fs) = .ok fs1
        from hw1] at h
      dsimp only at h
      rcases hw2 : fs1.writeStr (_path_resolve a cwd) (str "a") [] with e | fs2
      · rw [hw2] at h
        exact absurd h (by simp)
      · rw [hw2] at h
        dsimp only at h
        exact ih fs2 cwd r fs' h

theorem catReadAll_err_wd (l : List Str) : ∀ (fs : FS) (cwd : Str) (r : RRes),
    catReadAll fs l cwd = .error r → r.wd = some cwd := by
  induction l with
  | nil => intro fs cwd r h; exact absurd h (by simp [catReadAll])
  | cons a rest ih =>
    intro fs cwd r h
    unfold catReadAll at h
    dsimp only at h
    by_cases h1 : (!(fs.pathExists (_path_resolve a cwd))) = true
    · rw [if_pos h1] at h
      simp only [Except.error.injEq] at h
      rw [← h]
      rfl
    · rw [if_neg h1] at h
      by_cases h2 : fs.isDir (_path_resolve a cwd) = true
      · rw [if_pos h2] at h
        simp only [Except.error.injEq] at h
        rw [← h]
        rfl
      · rw [if_neg h2] at h
        rcases hc : catReadAll fs rest cwd with e | parts
        · rw [hc] at h
          simp only [Except.map, Except.error.injEq] at h
          rw [← h]
          exact ih fs cwd e hc
        · rw [hc] at h
          exact absurd h (by simp [Except.map])

theorem wcLoop_err_wd (l : List Str) : ∀ (fs : FS) (cwd : Str) (r : RRes),
    wcLoop fs l cwd = .error r → r.wd = some cwd := by
  induction l with
  | nil => intro fs cwd r h; exact absurd h (by simp [wcLoop])
  | cons a rest ih =>
    intro fs cwd r h
    unfold wcLoop at h
    dsimp only at h
    by_cases h1 : (!(fs.pathExists (_path_resolve a cwd))) = true
    · rw [if_pos h1] at h
      simp only [Except.error.injEq] at h
      rw [← h]
      rfl
    · rw [if_neg h1] at h
      by_cases h2 : fs.isDir (_path_resolve a cwd) = true
      · rw [if_pos h2] at h
        simp only [Except.error.injEq] at h
        rw [← h]
        rfl
      · rw [if_neg h2] at h
        rcases hc : wcLoop fs rest cwd with e | results
        · rw [hc] at h
          simp only [Except.map, Except.error.injEq] at h
          rw [← h]
          exact ih fs cwd e hc
        · rw [hc] at h
          exact absurd h (by simp [Except.map])

theorem sumLoop_err_wd (hx : Str → Str) (tag : Str) (l : List Str) :
    ∀ (fs : FS) (cwd : Str) (r : RRes),
    sumLoop hx tag fs l cwd = .error r → r.wd = some cwd := by
  induction l with
  | nil => intro fs cwd r h; exact absurd h (by simp [sumLoop])
  | cons a rest ih =>
    intro fs cwd r h
    unfold sumLoop at h
    dsimp only at h
    by_cases h1 : (!(fs.pathExists (_path_resolve a cwd))) = true
    · rw [if_pos h1] at h
      simp only [Except.error.injEq] at h
      rw [← h]
      rfl
    · rw [if_neg h1] at h
      by_cases h2 : fs.isDir (_path_resolve a cwd) = true
      · rw [if_pos h2] at h
        simp only [Except.error.injEq] at h
        rw [← h]
        rfl
      · rw [if_neg h2] at h
        rcases hc : sumLoop hx tag fs rest cwd with e | results
        · rw [hc] at h
          simp only [Except.map, Except.error.injEq] at h
          rw [← h]
          exact ih fs cwd e hc
        · rw [hc] at h
          exact absurd h (by simp [Except.map])

theorem ls_wd (M : Metrics) (fs : FS) (args : List Str) (cwd : Str) :
    (_ls M fs args cwd).wd = some cwd := by
  unfold _ls
  try dsimp only
  repeat' split
  all_goals rfl

theorem rm_wd (fs : FS) (args : List Str) (cwd : Str) :
    (_rm fs args cwd).1.wd = some cwd := by
  unfold _rm
  try dsimp only
  repeat' split
  all_goals first | rfl | apply rmLoop_wd

theorem rmdir_wd (fs : FS) (args : List Str) (cwd : Str) :
    (_rmdir fs args cwd).1.wd = some cwd := by
  unfold _rmdir
  try dsimp only
  repeat' split
  all_goals first | rfl | apply rmdirLoop_wd

theorem mv_wd (fs : FS) (args : List Str) (cwd : Str) :
    (_mv fs args cwd).1.wd = some cwd := by
  unfold _mv
  try dsimp only
  repeat' split
  all_goals first | rfl | apply mvLoop_wd

theorem cp_wd (fs : FS) (args : List Str) (cwd : Str) :
    (_cp fs args cwd).1.wd = some cwd := by
  unfold _cp
  try dsimp only
  repeat' split
  all_goals first | rfl | apply cpLoop_wd

theorem echo_wd (fs : FS) (args : List Str) (cwd : Str) :
    (_echo fs args cwd).1.wd = some cwd := by
  unfold _echo
  try dsimp only
  repeat' split
  all_goals rfl

theorem cat_wd (fs : FS) (args : List Str) (cwd : Str) :
    (_cat fs args cwd).1.wd = some cwd := by
  unfold _cat
  try dsimp only
  repeat' split
  all_goals try rfl
  all_goals (rename_i heq; exact catReadAll_err_wd _ _ _ _ heq)

theorem head_wd (fs : FS) (args : List Str) (cwd : Str) :
    (_head fs args cwd).wd = some cwd := by
  unfold _head
  try dsimp only
  repeat' split
  all_goals rfl

theorem tail_wd (fs : FS) (args : List Str) (cwd : Str) :
    (_tail fs args cwd).wd = some cwd := by
  unfold _tail
  try dsimp only
  repeat' split
  all_goals rfl

theorem wc_wd (fs : FS) (args : List Str) (cwd : Str) :
    (_wc fs args cwd).wd = some cwd := by
  unfold _wc
  try dsimp only
  repeat' split
  all_goals try rfl
  all_goals (rename_i heq; exact wcLoop_err_wd _ _ _ _ heq)

theorem grep_wd (fs : FS) (args : List Str) (cwd : Str) :
    (_grep fs args cwd).wd = some cwd := by
  unfold _grep
  try dsimp only
  repeat' split
  all_goals rfl

theorem find_wd (fs : FS) (args : List Str) (cwd : Str) :
    (_find fs args cwd).wd = some cwd := by
  unfold _find
  dsimp only
  split
  · rfl
  · rfl

theorem stat_wd (M : Metrics) (fs : FS) (args : List Str) (cwd : Str) :
    (_stat M fs args cwd).wd = some cwd := by
  unfold _stat
  try dsimp only
  repeat' split
  all_goals rfl

theorem chmod_wd (fs : FS) (args : List Str) (cwd : Str) :
    (_chmod fs args cwd).wd = some cwd := by
  unfold _chmod
  try dsimp only
  repeat' split
  all_goals rfl

theorem md5sum_wd (M : Metrics) (fs : FS) (args : List Str) (cwd : Str) :
    (_md5sum M fs args cwd).wd = some cwd := by
  unfold _md5sum
  try dsimp only
  repeat' split
  all_goals try rfl
  all_goals (rename_i heq; exact sumLoop_err_wd _ _ _ _ _ _ heq)

theorem sha256sum_wd (M : Metrics) (fs : FS) (args : List Str) (cwd : Str) :
    (_sha256sum M fs args cwd).wd = some cwd := by
  unfold _sha256sum
  try dsimp only
  repeat' split
  all_goals try rfl
  all_goals (rename_i heq; exact sumLoop_err_wd _ _ _ _ _ _ heq)

theorem which_wd (args : List Str) (cwd : Str) :
    (_which args cwd).wd = some cwd := by
  unfold _which
  try dsimp only
  repeat' split
  all_goals rfl

theorem mkdir_wd (fs : FS) (args : List Str) (cwd : Str) (r : RRes) (fs' : FS)
    (h : _mkdir fs args cwd = .ok (r, fs')) : r.wd = some cwd := by
  unfold _mkdir at h
  by_cases h0 : args = []
  · rw [if_pos h0] at h
    simp only [Except.ok.injEq, Prod.mk.injEq] at h
    rw [← h.1]
    rfl
  · rw [if_neg h0] at h
    exact mkdirLoop_wd args fs cwd r fs' h

theorem touch_wd (fs : FS) (args : List Str) (cwd : Str) (r : RRes) (fs' : FS)
    (h : _touch fs args cwd = .ok (r, fs')) : r.wd = some cwd := by
  unfold _touch at h
  by_cases h0 : args = []
  · rw [if_pos h0] at h
    simp only [Except.ok.injEq, Prod.mk.injEq] at h
    rw [← h.1]
    rfl
  · rw [if_neg h0] at h
    exact touchLoop_wd args fs cwd r fs' h

theorem tree_wd (fs : FS) (args : List Str) (cwd : Str) (r : RRes)
    (h : _tree fs args cwd = .ok r) : r.wd = some cwd := by
  unfold _tree at h
  dsimp only at h
  rcases args with _ | ⟨a, rest⟩ <;>
    [skip; skip] <;>
    · split at h
      · split at h
        · exact absurd h (by simp)
        · simp only [Except.ok.injEq] at h
          rw [← h]
          rfl
      · simp only [Except.ok.injEq] at h
        rw [← h]
        rfl

theorem du_wd (M : Metrics) (fs : FS) (args : List Str) (cwd : Str) (r : RRes)
    (h : _du M fs args cwd = .ok r) : r.wd = some cwd := by
  unfold _du at h
  dsimp only at h
  split at h
  · split at h
    · exact absurd h (by simp)
    · simp only [Except.ok.injEq] at h
      rw [← h]
      rfl
  · split at h <;>
      (simp only [Except.ok.injEq] at h; rw [← h]; rfl)

theorem cd_wd (M : Metrics) (fs : FS) (args : List Str) (cwd : Str) (r : RRes)
    (h : _cd M fs args cwd = .ok r) :
    r.wd = some cwd ∨
      (r.exit = 0 ∧ ∃ d, r.wd = some d ∧ fs.isDir d = true) := by
  unfold _cd at h
  dsimp only at h
  split at h
  · split at h
    · exact absurd h (by simp)
    · simp only [Except.ok.injEq] at h
      rw [← h]
      exact Or.inl rfl
  · rename_i hdir
    split at h
    · split at h
      · exact absurd h (by simp)
      · simp only [Except.ok.injEq] at h
        rw [← h]
        exact Or.inl rfl
    · rename_i hnotdir
      simp only [Except.ok.injEq] at h
      rw [← h]
      right
      refine ⟨rfl, _, rfl, ?_⟩
      simpa using hnotdir

theorem wd_of_ok {r0 r : RRes} {fs0 fs1 : FS} {hd0 hd : Option HeredocS}
    {im0 im : Option InputS}
    (h : (Except.ok (r0, fs0, hd0, im0) :
        Except Str (RRes × FS × Option HeredocS × Option InputS)) =
      .ok (r, fs1, hd, im)) : r = r0 := by
  simp only [Except.ok.injEq, Prod.mk.injEq] at h
  exact h.1.symm

/-- The working-directory slot produced by dispatch: always the supplied
`cwd` or `none`, except for a successful `cd`. -/
theorem dispatchLine_wd (M : Metrics) (fs : FS) (raw cwd : Str) (r : RRes)
    (fs1 : FS) (hd : Option HeredocS) (im : Option InputS)
    (h : dispatchLine M fs raw cwd = .ok (r, fs1, hd, im)) :
    r.wd = some cwd ∨ r.wd = none ∨
      ((∃ rest, shlexSplit raw = .ok (str "cd" :: rest)) ∧ r.exit = 0 ∧
        ∃ d, r.wd = some d ∧ fs.isDir d = true) := by
  unfold dispatchLine at h
  by_cases h0 : raw = []
  · rw [if_pos h0] at h
    rw [wd_of_ok h]
    exact Or.inl rfl
  rw [if_neg h0] at h
  rcases hs : shlexSplit raw with e | tl
  · rw [hs] at h
    rw [wd_of_ok h]
    exact Or.inl rfl
  rcases tl with _ | ⟨cmd, args⟩
  · rw [hs] at h
    exact absurd h (by simp)
  rw [hs] at h
  dsimp only at h
  by_cases c1 : cmd = str "pwd"
  · rw [if_pos c1] at h; rw [wd_of_ok h]; exact Or.inl rfl
  rw [if_neg c1] at h
  by_cases c2 : cmd = str "ls"
  · rw [if_pos c2] at h; rw [wd_of_ok h]; exact Or.inl (ls_wd M fs args cwd)
  rw [if_neg c2] at h
  by_cases c3 : cmd = str "cd"
  · rw [if_pos c3] at h
    rcases hv : _cd M fs args cwd with e | r0 <;> rw [hv] at h
    · rw [wd_of_ok h]; exact Or.inl rfl
    · rw [wd_of_ok h]
      rcases cd_wd M fs args cwd r0 hv with hl | ⟨he, d, hwd, hdir⟩
      · exact Or.inl hl
      · exact Or.inr (Or.inr ⟨⟨args, by rw [← c3]⟩, he, d, hwd, hdir⟩)
  rw [if_neg c3] at h
  by_cases c4 : cmd = str "mkdir"
  · rw [if_pos c4] at h
    rcases hv : _mkdir fs args cwd with ⟨e, fs'⟩ | ⟨r0, fs'⟩ <;> rw [hv] at h
    · rw [wd_of_ok h]; exact Or.inl rfl
    · rw [wd_of_ok h]; exact Or.inl (mkdir_wd fs args cwd r0 fs' hv)
  rw [if_neg c4] at h
  by_cases c5 : cmd = str "rm"
  · rw [if_pos c5] at h; rw [wd_of_ok h]; exact Or.inl (rm_wd fs args cwd)
  rw [if_neg c5] at h
  by_cases c6 : cmd = str "rmdir"
  · rw [if_pos c6] at h; rw [wd_of_ok h]; exact Or.inl (rmdir_wd fs args cwd)
  rw [if_neg c6] at h
  by_cases c7 : cmd = str "cat"
  · rw [if_pos c7] at h
    by_cases s1 : startsWithL (str "HEREDOC_MODE:") (_cat fs args cwd).1.out
    · rw [if_pos s1] at h
      rcases hps : pySplitMax ':' 3 (_cat fs args cwd).1.out with
        _ | ⟨x1, _ | ⟨x2, _ | ⟨x3, _ | ⟨x4, _ | ⟨x5, tl2⟩⟩⟩⟩⟩ <;> rw [hps] at h <;>
        (rw [wd_of_ok h]; exact Or.inl rfl)
    rw [if_neg s1] at h
    by_cases s2 : startsWithL (str "INPUT_MODE:") (_cat fs args cwd).1.out
    · rw [if_pos s2] at h
      rcases hps : pySplitMax ':' 2 (_cat fs args cwd).1.out with
        _ | ⟨x1, _ | ⟨x2, _ | ⟨x3, _ | ⟨x4, tl2⟩⟩⟩⟩ <;> rw [hps] at h <;>
        (rw [wd_of_ok h]; exact Or.inl rfl)
    rw [if_neg s2] at h
    rw [wd_of_ok h]
    exact Or.inl (cat_wd fs args cwd)
  rw [if_neg c7] at h
  by_cases c8 : cmd = str "touch"
  · rw [if_pos c8] at h
    rcases hv : _touch fs args cwd with ⟨e, fs'⟩ | ⟨r0, fs'⟩ <;> rw [hv] at h
    · rw [wd_of_ok h]; exact Or.inl rfl
    · rw [wd_of_ok h]; exact Or.inl (touch_wd fs args cwd r0 fs' hv)
  rw [if_neg c8] at h
  by_cases c9 : cmd = str "mv"
  · rw [if_pos c9] at h; rw [wd_of_ok h]; exact Or.inl (mv_wd fs args cwd)
  rw [if_neg c9] at h
  by_cases c10 : cmd = str "cp"
  · rw [if_pos c10] at h; rw [wd_of_ok h]; exact Or.inl (cp_wd fs args cwd)
  rw [if_neg c10] at h
  by_cases c11 : cmd = str "echo"
  · rw [if_pos c11] at h; rw [wd_of_ok h]; exact Or.inl (echo_wd fs args cwd)
  rw [if_neg c11] at h
  by_cases c12 : cmd = str "cpu"
  · rw [if_pos c12] at h; rw [wd_of_ok h]; exact Or.inr (Or.inl rfl)
  rw [if_neg c12] at h
  by_cases c13 : cmd = str "mem"
  · rw [if_pos c13] at h; rw [wd_of_ok h]; exact Or.inr (Or.inl rfl)
  rw [if_neg c13] at h
  by_cases c14 : cmd = str "ps"
  · rw [if_pos c14] at h; rw [wd_of_ok h]; exact Or.inr (Or.inl rfl)
  rw [if_neg c14] at h
  by_cases c15 : cmd = str "head"
  · rw [if_pos c15] at h; rw [wd_of_ok h]; exact Or.inl (head_wd fs args cwd)
  rw [if_neg c15] at h
  by_cases c16 : cmd = str "tail"
  · rw [if_pos c16] at h; rw [wd_of_ok h]; exact Or.inl (tail_wd fs args cwd)
  rw [if_neg c16] at h
  by_cases c17 : cmd = str "wc"
  · rw [if_pos c17] at h; rw [wd_of_ok h]; exact Or.inl (wc_wd fs args cwd)
  rw [if_neg c17] at h
  by_cases c18 : cmd = str "grep"
  · rw [if_pos c18] at h; rw [wd_of_ok h]; exact Or.inl (grep_wd fs args cwd)
  rw [if_neg c18] at h
  by_cases c19 : cmd = str "find"
  · rw [if_pos c19] at h; rw [wd_of_ok h]; exact Or.inl (find_wd fs args cwd)
  rw [if_neg c19] at h
  by_cases c20 : cmd = str "tree"
  · rw [if_pos c20] at h
    rcases hv : _tree fs args cwd with e | r0 <;> rw [hv] at h
    · rw [wd_of_ok h]; exact Or.inl rfl
    · rw [wd_of_ok h]; exact Or.inl (tree_wd fs args cwd r0 hv)
  rw [if_neg c20] at h
  by_cases c21 : cmd = str "du"
  · rw [if_pos c21] at h
    rcases hv : _du M fs args cwd with e | r0 <;> rw [hv] at h
    · rw [wd_of_ok h]; exact Or.inl rfl
    · rw [wd_of_ok h]; exact Or.inl (du_wd M fs args cwd r0 hv)
  rw [if_neg c21] at h
  by_cases c22 : cmd = str "df"
  · rw [if_pos c22] at h; rw [wd_of_ok h]; exact Or.inl rfl
  rw [if_neg c22] at h
  by_cases c23 : cmd = str "stat"
  · rw [if_pos c23] at h; rw [wd_of_ok h]; exact Or.inl (stat_wd M fs args cwd)
  rw [if_neg c23] at h
  by_cases c24 : cmd = str "chmod"
  · rw [if_pos c24] at h; rw [wd_of_ok h]; exact Or.inl (chmod_wd fs args cwd)
  rw [if_neg c24] at h
  by_cases c25 : cmd = str "date"
  · rw [if_pos c25] at h; rw [wd_of_ok h]; exact Or.inl rfl
  rw [if_neg c25] at h
  by_cases c26 : cmd = str "uptime"
  · rw [if_pos c26] at h; rw [wd_of_ok h]; exact Or.inr (Or.inl rfl)
  rw [if_neg c26] at h
  by_cases c27 : cmd = str "whoami"
  · rw [if_pos c27] at h; rw [wd_of_ok h]; exact Or.inl rfl
  rw [if_neg c27] at h
  by_cases c28 : cmd = str "hostname"
  · rw [if_pos c28] at h; rw [wd_of_ok h]; exact Or.inl rfl
  rw [if_neg c28] at h
  by_cases c29 : cmd = str "md5sum"
  · rw [if_pos c29] at h; rw [wd_of_ok h]; exact Or.inl (md5sum_wd M fs args cwd)
  rw [if_neg c29] at h
  by_cases c30 : cmd = str "sha256sum"
  · rw [if_pos c30] at h; rw [wd_of_ok h]; exact Or.inl (sha256sum_wd M fs args cwd)
  rw [if_neg c30] at h
  by_cases c31 : cmd = str "clear"
  · rw [if_pos c31] at h; rw [wd_of_ok h]; exact Or.inl rfl
  rw [if_neg c31] at h
  by_cases c32 : cmd = str "which"
  · rw [if_pos c32] at h; rw [wd_of_ok h]; exact Or.inl (which_wd args cwd)
  rw [if_neg c32] at h
  by_cases c33 : cmd = str "help" ∨ cmd = str "--help" ∨ cmd = str "-h"
  · rw [if_pos c33] at h; rw [wd_of_ok h]; exact Or.inl rfl
  rw [if_neg c33] at h
  rw [wd_of_ok h]
  exact Or.inl rfl

/-- C10 (amended): for every invocation with no active session and a
non-`None` caller-supplied working directory, the working-directory slot of
the result is either the supplied working directory or the "unchanged"
sentinel (`None`) for every verb except `cd`; only a successful `cd`
(exit 0, with the returned path an existing directory) ever returns a
working directory different from the one passed in. -/
theorem run_wd_slot (M : Metrics) (st : St) (raw cwd : Str) (r : RRes) (st' : St)
    (hhd : st.heredoc = none) (him : st.inputMode = none)
    (hrun : run M st raw (some cwd) = .ok (r, st')) :
    r.wd = some cwd ∨ r.wd = none ∨
      ((∃ rest, shlexSplit (pyStrip raw) = .ok (str "cd" :: rest)) ∧ r.exit = 0 ∧
        ∃ d, r.wd = some d ∧ st.fs.isDir d = true) := by
  rw [run_no_session M st raw cwd hhd him] at hrun
  rcases hdl : dispatchLine M st.fs (pyStrip raw) cwd with e | ⟨r0, fs1, hd, im⟩
  · rw [hdl] at hrun
    exact absurd hrun (by simp)
  · rw [hdl] at hrun
    simp only [Except.ok.injEq, Prod.mk.injEq] at hrun
    obtain ⟨hr, -⟩ := hrun
    rw [← hr]
    exact dispatchLine_wd M st.fs (pyStrip raw) cwd r0 fs1 hd im hdl

/-- C10 counterexample: invoking `run("pwd", None)` — a working directory
the caller did not supply — substitutes `"/tmp"` and returns the concrete
path `"/tmp"` in the working-directory slot, which is neither the
caller-supplied value (`None`) nor the `None` sentinel, although `pwd` is
not `cd`. -/
theorem run_wd_none_cwd_counterexample :
    ∃ st', run cM (freshSt ⟨[]⟩) (str "pwd") none =
        .ok (⟨str "/tmp\n", [], some (str "/tmp"), 0⟩, st') ∧
      some (str "/tmp") ≠ (none : Option Str) :=
  ⟨_, rfl, by decide⟩

/-- Witness for C10 at a concrete input. -/
theorem run_wd_slot_witness :
    ∃ r st', run cM (freshSt cFS) (str "ls") (some (str "/tmp")) = .ok (r, st') ∧
      (r.wd = some (str "/tmp") ∨ r.wd = none ∨
        ((∃ rest, shlexSplit (pyStrip (str "ls")) = .ok (str "cd" :: rest)) ∧
          r.exit = 0 ∧ ∃ d, r.wd = some d ∧ (freshSt cFS).fs.isDir d = true)) :=
  ⟨_, _, rfl, run_wd_slot cM (freshSt cFS) (str "ls") (str "/tmp") _ _ rfl rfl rfl⟩

end PyTerm
